import Mathlib

/-!
# Telephony / conversational-agent session bridge

A shallow embedding of `src/dialogflow-utils.js` (class `DialogflowService` and the
stream factories) and of the websocket handlers of `src/server.js`.

Conventions of the embedding.

* A JavaScript object that the code mutates is a Lean structure that is passed and
  returned explicitly; `World` gathers the service object, the variables of the
  `/media` handler of `server.js`, every pipeline created so far and a chronological
  log of the observable effects.
* A Node stream is referred to by the index of the pipeline it belongs to.
* An exception that escapes a listener is recorded in `World.uncaught`; nothing runs
  after it, since neither file installs a handler for it.
* The library calls whose result only travels through the bridge (`Buffer.from`,
  `sessionPath`, `structProtoToJson`) are kept symbolic.
* A chunk written to the request stream is handed to its `data` listeners by a
  separate `deliver` step, in registration order: first the pipe into the decoder
  (registered by `pipeline(...)`), then the tap registered by `startPipeline`.
* A message of the agent reaches two listeners of the response stream: the tap
  (step `response`) and the pipe into the audio transform, whose output is published
  as an `audio` event (step `audioData`, carrying the base64 text of the transcoded
  chunk). Their relative order depends on stream buffering, so they are separate steps.
* The listeners are closures over the service object: the completion callback and the
  `close` listener of an earlier pipeline act on the flags of the same session.
-/

namespace DialogflowGateway

/-! ## Values exchanged with the outside -/

/-- Exceptions and stream errors that the JavaScript code can meet. -/
inductive JsError
  | parseError
  | typeError
  | streamError (cause : String)
  deriving DecidableEq, Repr

/-- The `start` member of an inbound frame: `{callSid, streamSid}`. -/
structure StartInfo where
  callSid : Option String
  streamSid : Option String
  deriving DecidableEq, Repr

/-- The `media` member of an inbound frame: `{payload}`. -/
structure MediaInfo where
  payload : Option String
  deriving DecidableEq, Repr

/-- The `mark` member of an inbound frame: `{name}`. -/
structure MarkInfo where
  name : Option String
  deriving DecidableEq, Repr

/-- A value other than `null` that `JSON.parse` returns for an inbound frame, seen through
the members the code reads; a member that the value does not have, or on which the next
property read throws (`undefined`, `null`), is `none`. -/
structure Msg where
  event : Option String
  start : Option StartInfo
  media : Option MediaInfo
  mark : Option MarkInfo
  deriving DecidableEq, Repr

/-- One message received on the telephony websocket: text that `JSON.parse` rejects, the
text `null`, or text that parses to the non-null value `msg`. -/
inductive RawFrame
  | malformed (text : String)
  | jsonNull
  | json (msg : Msg)
  deriving DecidableEq, Repr

/-- What `JSON.parse` returns: `null`, on which every property read throws a `TypeError`,
or another value. -/
inductive Parsed
  | null
  | value (msg : Msg)
  deriving DecidableEq, Repr

/-- The buffer `Buffer.from(text, encoding)`, kept symbolically. -/
structure Buffer where
  text : String
  encoding : String
  deriving DecidableEq, Repr

/-- The `audioConfig` member of `intentQueryAudioInput`. -/
structure AudioConfig where
  audioEncoding : String
  sampleRateHertz : Nat
  languageCode : String
  singleUtterance : Bool
  deriving DecidableEq, Repr

/-- The `queryInput` of the initial request: the audio configuration or the trigger event. -/
inductive QueryInput
  | audioInput (audioConfig : AudioConfig) (interimResults : Bool)
  | eventInput (name : Option String) (languageCode : String)
  deriving DecidableEq, Repr

/-- The request `initialStreamRequest` built by `createDetectStream`. -/
structure InitialStreamRequest where
  queryInput : QueryInput
  session : String
  queryParamsSession : String
  outputAudioEncoding : String
  deriving DecidableEq, Repr

/-- What is written to the agent (detect) stream. -/
inductive AgentWrite
  | initialRequest (req : InitialStreamRequest)
  | inputAudio (audio : Buffer)
  deriving DecidableEq, Repr

/-- The `intent` member of a query result. -/
structure Intent where
  name : Option String
  displayName : Option String
  endInteraction : Bool
  deriving DecidableEq, Repr

/-- A query result of the agent; `parameters` is the protobuf struct, as key/value text. -/
structure QueryResult where
  intent : Option Intent
  parameters : List (String × String)
  fulfillmentText : String
  deriving DecidableEq, Repr

/-- The `recognitionResult` member of an agent response. -/
structure RecognitionResult where
  transcript : Option String
  deriving DecidableEq, Repr

/-- One message of the agent response stream, as read by the tap of `startPipeline`. -/
structure Response where
  recognitionResult : Option RecognitionResult
  queryResult : Option QueryResult
  deriving DecidableEq, Repr

/-- The object returned by `getFinalQueryResult`; `parameters` stands for
`structjson.structProtoToJson(parameters)`. -/
structure FinalQueryResult where
  intentName : Option String
  intentDisplayName : Option String
  parameters : List (String × String)
  deriving DecidableEq, Repr

/-- The events the service publishes with `this.emit`. -/
inductive Event
  | callStarted (callSid streamSid : Option String)
  | audio (payload : String)
  | interrupted (transcript : String)
  | endOfInteraction (queryResult : Option FinalQueryResult)
  | error (err : JsError)
  deriving DecidableEq, Repr

/-- The frames `server.js` writes to the telephony stream (before `JSON.stringify`). -/
inductive OutFrame
  | media (streamSid : Option String) (payload : String)
  | mark (streamSid : Option String) (name : String)
  | clear (streamSid : Option String)
  deriving DecidableEq, Repr

/-- The TwiML document sent to the call-control API at the end of the interaction. -/
inductive Twiml
  | redirect (url : String) (queryResult : Option FinalQueryResult)
  | hangup
  deriving DecidableEq, Repr

/-- Observable effects, in the order in which they happen. -/
inductive Effect
  | emitted (e : Event)
  | requestWrite (pipeline : Nat) (chunk : RawFrame)
  | requestEnd (pipeline : Nat)
  | detectWrite (pipeline : Nat) (chunk : AgentWrite)
  | detectEnd (pipeline : Nat)
  | mediaWrite (frame : OutFrame)
  | callUpdate (callSid : Option String) (twiml : Twiml)
  | warned
  deriving DecidableEq, Repr

/-! ## State -/

/-- The values read from `process.env` and from the session client. -/
structure Env where
  startingEventName : Option String
  sessionPath : String
  queryParamsSession : String
  endOfInteractionUrl : Option String
  deriving DecidableEq, Repr

/-- The mutable fields of a `DialogflowService` object. -/
structure Session where
  isFirst : Bool
  isReady : Bool
  isStopped : Bool
  isInterrupted : Bool
  finalQueryResult : Option QueryResult
  requestStream : Option Nat
  detectStream : Option Nat
  deriving DecidableEq, Repr

/-- One pipeline built by `startPipeline`: the request stream, the detect stream and the
completion callback of `pipeline(...)`. -/
structure Pipeline where
  requestBuffer : List RawFrame
  requestEnded : Bool
  requestClosed : Bool
  detectWrites : List AgentWrite
  detectEnded : Bool
  detectDestroyed : Bool
  terminated : Bool
  deriving DecidableEq, Repr

/-- The service object, the variables of the `/media` handler, the pipelines created so
far (oldest first) and the log of effects (oldest first). -/
structure World where
  env : Env
  session : Session
  callSid : Option String
  streamSid : Option String
  pipelines : List Pipeline
  log : List Effect
  uncaught : Option JsError
  deriving DecidableEq, Repr

/-- The state right after `new DialogflowService()` in the `/media` handler. -/
def World.init (env : Env) : World :=
  { env := env
    session :=
      { isFirst := true, isReady := false, isStopped := false, isInterrupted := false
        finalQueryResult := none, requestStream := none, detectStream := none }
    callSid := none
    streamSid := none
    pipelines := []
    log := []
    uncaught := none }

/-- Apply `f` to pipeline `p`, when it exists. -/
def World.modifyPipeline (w : World) (p : Nat) (f : Pipeline → Pipeline) : World :=
  match w.pipelines[p]? with
  | some pl => { w with pipelines := w.pipelines.set p (f pl) }
  | none => w

/-- Append one effect to the log. -/
def World.record (w : World) (e : Effect) : World :=
  { w with log := w.log ++ [e] }

/-! ## `src/server.js`: the listeners of the `/media` handler -/

/-- The listener `dialogflowService.on("callStarted", ...)`. -/
def onCallStarted (w : World) (callSid streamSid : Option String) : World :=
  { w with callSid := callSid, streamSid := streamSid }

/-- The listener `dialogflowService.on("audio", ...)`: the outbound encoder. -/
def onAudio (w : World) (audio : String) : World :=
  let w := w.record (.mediaWrite (.media w.streamSid audio))
  if w.session.isStopped then
    w.record (.mediaWrite (.mark w.streamSid "endOfInteraction"))
  else w

/-- The listener `dialogflowService.on("interrupted", ...)`. -/
def onInterrupted (w : World) (_transcript : String) : World :=
  if !w.session.isInterrupted then
    let w := w.record (.mediaWrite (.clear w.streamSid))
    { w with session := { w.session with isInterrupted := true } }
  else w

/-- The listener `dialogflowService.on("endOfInteraction", ...)`: builds the TwiML and
hands it to the call-control API. -/
def onEndOfInteraction (w : World) (queryResult : Option FinalQueryResult) : World :=
  let twiml :=
    match w.env.endOfInteractionUrl with
    | some url => if url ≠ "" then Twiml.redirect url queryResult else Twiml.hangup
    | none => Twiml.hangup
  w.record (.callUpdate w.callSid twiml)

/-- The call `this.emit(name, payload)`: the listeners run synchronously. No listener is
registered for `error`, in which case `EventEmitter.emit` throws the error. -/
def emit (w : World) (e : Event) : World :=
  let w := w.record (.emitted e)
  match e with
  | .callStarted callSid streamSid => onCallStarted w callSid streamSid
  | .audio payload => onAudio w payload
  | .interrupted transcript => onInterrupted w transcript
  | .endOfInteraction queryResult => onEndOfInteraction w queryResult
  | .error err => { w with uncaught := some err }

/-! ## `src/dialogflow-utils.js` -/

/-- The constant `intentQueryAudioInput`. -/
def intentQueryAudioInput : QueryInput :=
  .audioInput
    { audioEncoding := "AUDIO_ENCODING_MULAW", sampleRateHertz := 8000
      languageCode := "en-US", singleUtterance := true }
    false

/-- The request that `createDetectStream` writes first to the stream it opens. -/
def createDetectStream (env : Env) (isFirst : Bool) : InitialStreamRequest :=
  let queryInput :=
    if isFirst then QueryInput.eventInput env.startingEventName "en-US"
    else intentQueryAudioInput
  { queryInput := queryInput
    session := env.sessionPath
    queryParamsSession := env.queryParamsSession
    outputAudioEncoding := "OUTPUT_AUDIO_ENCODING_LINEAR_16" }

/-- The call `JSON.parse(chunk.toString("utf8"))`. -/
def jsonParse : RawFrame → Except JsError Parsed
  | .malformed _ => .error .parseError
  | .jsonNull => .ok .null
  | .json msg => .ok (.value msg)

/-- The transform of `createAudioRequestStream(isStopped)`: the inbound decoder. The
result is the chunk handed to `callback`, if any. -/
def createAudioRequestStream (isStopped : Bool) (chunk : RawFrame) :
    Except JsError (Option AgentWrite) :=
  match jsonParse chunk with
  | .error e => .error e
  | .ok .null => .error .typeError
  | .ok (.value msg) =>
    if msg.event ≠ some "media" then .ok none
    else if isStopped then .ok none
    else
      match msg.media with
      | none => .error .typeError
      | some media =>
        match media.payload with
        | none => .error .typeError
        | some payload => .ok (some (.inputAudio { text := payload, encoding := "base64" }))

/-- The method `getFinalQueryResult`. -/
def getFinalQueryResult (s : Session) : Except JsError (Option FinalQueryResult) :=
  match s.finalQueryResult with
  | none => .ok none
  | some q =>
    match q.intent with
    | none => .error .typeError
    | some intent =>
      .ok (some { intentName := intent.name, intentDisplayName := intent.displayName
                  parameters := q.parameters })

/-- The listener `this._requestStream.on("data", ...)` of `startPipeline`: the events
it emits, or the exception it throws before emitting anything. -/
def requestTap (s : Session) (data : RawFrame) : Except JsError (List Event) :=
  match jsonParse data with
  | .error e => .error e
  | .ok .null => .error .typeError
  | .ok (.value msg) =>
    let started : Except JsError (List Event) :=
      if msg.event = some "start" then
        match msg.start with
        | none => .error .typeError
        | some start => .ok [.callStarted start.callSid start.streamSid]
      else .ok []
    let marked : Except JsError (List Event) :=
      if msg.event = some "mark" then
        match msg.mark with
        | none => .error .typeError
        | some mark =>
          if mark.name = some "endOfInteraction" then
            match getFinalQueryResult s with
            | .error e => .error e
            | .ok q => .ok [.endOfInteraction q]
          else .ok []
      else .ok []
    match started, marked with
    | .error e, _ => .error e
    | .ok _, .error e => .error e
    | .ok es, .ok fs => .ok (es ++ fs)

/-- The method `stop`. -/
def stop (w : World) : World :=
  { w with session := { w.session with isStopped := true } }

/-- The method `startPipeline`: the world afterwards and the stream it returns. -/
def startPipeline (w : World) : World × Option Nat :=
  if !w.session.isReady then
    let id := w.pipelines.length
    let first := AgentWrite.initialRequest (createDetectStream w.env w.session.isFirst)
    let pl : Pipeline :=
      { requestBuffer := [], requestEnded := false, requestClosed := false
        detectWrites := [first], detectEnded := false, detectDestroyed := false
        terminated := false }
    let s : Session :=
      { w.session with
        requestStream := some id
        detectStream := some id
        isFirst := if w.session.isFirst then false else w.session.isFirst
        isInterrupted := false
        isReady := true }
    ({ w with pipelines := w.pipelines ++ [pl], session := s
              log := w.log ++ [.detectWrite id first] }, some id)
  else (w, w.session.requestStream)

/-- The property `writableEnded` of request stream `id`. -/
def World.writableEnded (w : World) (id : Nat) : Bool :=
  match w.pipelines[id]? with
  | some pl => pl.requestEnded
  | none => false

/-- The property `destroyed` of detect stream `id`. -/
def World.detectDestroyed (w : World) (id : Nat) : Bool :=
  match w.pipelines[id]? with
  | some pl => pl.detectDestroyed
  | none => false

/-- The detect stream `id` has been ended, so that its `writable` is false. -/
def World.detectEnded (w : World) (id : Nat) : Bool :=
  match w.pipelines[id]? with
  | some pl => pl.detectEnded
  | none => false

/-- The request stream `id` has emitted `close`. -/
def World.requestClosed (w : World) (id : Nat) : Bool :=
  match w.pipelines[id]? with
  | some pl => pl.requestClosed
  | none => false

/-- The call `stream.write(message)` on request stream `id`. -/
def World.writeRequest (w : World) (id : Nat) (message : RawFrame) : World :=
  (w.modifyPipeline id (fun pl => { pl with requestBuffer := pl.requestBuffer ++ [message] })).record
    (.requestWrite id message)

/-- The method `send`. -/
def send (w : World) (message : RawFrame) : World :=
  let r := startPipeline w
  match r.2 with
  | none => r.1.record .warned
  | some id =>
    if r.1.writableEnded id || r.1.session.isStopped then r.1.record .warned
    else r.1.writeRequest id message

/-- The method `finish`. -/
def finish (w : World) : World :=
  let w :=
    match w.session.requestStream with
    | some id =>
      if !w.writableEnded id then
        (w.modifyPipeline id (fun pl => { pl with requestEnded := true })).record (.requestEnd id)
      else w
    | none => w
  let w :=
    match w.session.detectStream with
    | some id =>
      if !w.detectDestroyed id then
        (w.modifyPipeline id (fun pl => { pl with detectEnded := true })).record (.detectEnd id)
      else w
    | none => w
  { w with session := { w.session with requestStream := none, detectStream := none, isReady := false } }

/-- The listener `responseStream.on("data", ...)` of `startPipeline`. -/
def onResponseData (w : World) (data : Response) : World :=
  let w :=
    match data.recognitionResult with
    | some r =>
      match r.transcript with
      | some transcript => if transcript.length > 0 then emit w (.interrupted transcript) else w
      | none => w
    | none => w
  match data.queryResult with
  | some q =>
    match q.intent with
    | some intent =>
      if intent.endInteraction then
        let w := { w with session := { w.session with finalQueryResult := some q } }
        let w := stop w
        match w.session.detectStream with
        | some id =>
          if !w.detectDestroyed id && !w.detectEnded id then
            let w := (w.modifyPipeline id (fun pl => { pl with detectEnded := true })).record
              (.detectEnd id)
            { w with session := { w.session with detectStream := none } }
          else w
        | none => w
      else w
    | none => w
  | none => w

/-- The completion callback of `pipeline(...)` for pipeline `p`. -/
def onPipelineDone (w : World) (err : Option JsError) : World :=
  let w :=
    match err with
    | some e => emit w (.error e)
    | none => w
  if w.uncaught.isSome then w
  else { w with session := { w.session with isReady := false, requestStream := none } }

/-- The listener `this._requestStream.on("close", ...)`. -/
def onRequestClose (w : World) : World :=
  { w with session := { w.session with isReady := false } }

/-- The pipe from the decoder into the detect stream: a chunk reaches the agent unless
the detect stream has been ended or destroyed. -/
def pipeToDetect (w : World) (p : Nat) (chunk : AgentWrite) : World :=
  match w.pipelines[p]? with
  | some pl =>
    if pl.detectEnded || pl.detectDestroyed then w
    else
      (w.modifyPipeline p (fun pl => { pl with detectWrites := pl.detectWrites ++ [chunk] })).record
        (.detectWrite p chunk)
  | none => w

/-- Request stream `p` hands its oldest buffered chunk to its `data` listeners. -/
def deliver (w : World) (p : Nat) : World :=
  match w.pipelines[p]? with
  | none => w
  | some pl =>
    if pl.terminated || pl.requestClosed then w
    else
      match pl.requestBuffer with
      | [] => w
      | chunk :: rest =>
        let w := w.modifyPipeline p (fun pl => { pl with requestBuffer := rest })
        match createAudioRequestStream w.session.isStopped chunk with
        | .error e => { w with uncaught := some e }
        | .ok out =>
          let w :=
            match out with
            | some c => pipeToDetect w p c
            | none => w
          match requestTap w.session chunk with
          | .error e => { w with uncaught := some e }
          | .ok events => events.foldl emit w

/-! ## The session as a transition system -/

/-- What can happen to one session: the calls `send`, `stop` and `finish`, the delivery of
a buffered chunk by a request stream, a message on a response stream, a chunk out of an
audio transform, the completion callback of a pipeline (with its error, if any) and the
`close` event of a request stream. -/
inductive Step
  | send (frame : RawFrame)
  | deliver (pipeline : Nat)
  | stop
  | finish
  | response (pipeline : Nat) (data : Response)
  | audioData (pipeline : Nat) (payload : String)
  | pipelineDone (pipeline : Nat) (err : Option JsError)
  | requestClose (pipeline : Nat)
  deriving DecidableEq, Repr

/-- Pipeline `p` exists and its completion callback has not run yet. -/
def World.active (w : World) (p : Nat) : Bool :=
  match w.pipelines[p]? with
  | some pl => !pl.terminated
  | none => false

/-- One step of the session. The data events and the completion callback of a pipeline
only occur while it has not terminated; its request stream emits `close` once, before or
after that; nothing runs after an uncaught exception. -/
def step (w : World) (s : Step) : World :=
  if w.uncaught.isSome then w
  else
    match s with
    | .send frame => send w frame
    | .deliver p => deliver w p
    | .stop => stop w
    | .finish => finish w
    | .response p data => if w.active p then onResponseData w data else w
    | .audioData p payload => if w.active p then emit w (.audio payload) else w
    | .pipelineDone p err =>
      if w.active p then
        onPipelineDone
          (w.modifyPipeline p (fun pl => { pl with terminated := true, detectDestroyed := true }))
          err
      else w
    | .requestClose p =>
      if decide (p < w.pipelines.length) && !w.requestClosed p then
        onRequestClose (w.modifyPipeline p (fun pl => { pl with requestClosed := true }))
      else w

/-- Run a sequence of steps. -/
def run (w : World) (steps : List Step) : World :=
  steps.foldl step w

/-- Whether a step is a chunk coming out of an audio transform. -/
def Step.isAudioData : Step → Bool
  | .audioData _ _ => true
  | _ => false

/-- Whether some pipeline whose request stream has been ended by `finish()` or has emitted
`close` still awaits its completion callback. -/
def World.tearingDown (w : World) : Bool :=
  w.pipelines.any (fun pl => !pl.terminated && (pl.requestEnded || pl.requestClosed))

/-- Whether step `s` arrives in order at `w`: no frame is sent while a pipeline is being
torn down, and a request stream emits `close` before the completion callback of its
pipeline. -/
def Step.inOrderAt (w : World) : Step → Bool
  | .send _ => !w.tearingDown
  | .requestClose p => w.active p
  | _ => true

/-- Whether every step of the sequence arrives in order, starting from `w`. -/
def inOrder : World → List Step → Bool
  | _, [] => true
  | w, s :: rest => s.inOrderAt w && inOrder (step w s) rest

/-- The number of pipelines whose completion callback has not run. -/
def World.activeCount (w : World) : Nat :=
  (w.pipelines.filter (fun pl => !pl.terminated)).length

/-- The invariant behind the single pipeline: at most one pipeline has not terminated; when
the session is not ready every unterminated pipeline is being torn down; and a pipeline
that is neither terminated nor being torn down is the one the session refers to. -/
def World.SinglePipeline (w : World) : Prop :=
  w.activeCount ≤ 1 ∧
  (w.session.isReady = false →
    ∀ (q : Nat) (pl : Pipeline), w.pipelines[q]? = some pl → pl.terminated = false →
      pl.requestEnded = true ∨ pl.requestClosed = true) ∧
  (∀ (q : Nat) (pl : Pipeline), w.pipelines[q]? = some pl → pl.terminated = false →
    pl.requestEnded = false → pl.requestClosed = false → w.session.requestStream = some q)

/-- The event an effect publishes, if it is an emission. -/
def Effect.event? : Effect → Option Event
  | .emitted e => some e
  | _ => none

/-- The outbound telephony frame an effect writes, if any. -/
def Effect.outFrame? : Effect → Option OutFrame
  | .mediaWrite f => some f
  | _ => none

/-- The chunk an effect writes to a request stream, if any. -/
def Effect.requestChunk? : Effect → Option RawFrame
  | .requestWrite _ chunk => some chunk
  | _ => none

/-- The audio chunk an effect forwards to the agent, if any. -/
def Effect.agentAudio? : Effect → Option Buffer
  | .detectWrite _ (.inputAudio b) => some b
  | _ => none

/-- Whether an effect is an `end()` call on a request or detect stream. -/
def Effect.isEndCall : Effect → Bool
  | .requestEnd _ => true
  | .detectEnd _ => true
  | _ => false

/-- Whether an event is `endOfInteraction`. -/
def Event.isEndOfInteraction : Event → Bool
  | .endOfInteraction _ => true
  | _ => false

/-- Whether an outbound frame is a `mark` frame. -/
def OutFrame.isMark : OutFrame → Bool
  | .mark _ _ => true
  | _ => false

/-- Whether an outbound frame is a `media` frame. -/
def OutFrame.isMedia : OutFrame → Bool
  | .media _ _ => true
  | _ => false

/-- Whether an outbound frame is a `clear` frame. -/
def OutFrame.isClear : OutFrame → Bool
  | .clear _ => true
  | _ => false

/-- The events emitted, in order. -/
def emittedEvents (log : List Effect) : List Event :=
  log.filterMap Effect.event?

/-- The frames written to the telephony stream, in order. -/
def mediaWrites (log : List Effect) : List OutFrame :=
  log.filterMap Effect.outFrame?

/-- The chunks written to request streams, in order. -/
def requestWrites (log : List Effect) : List RawFrame :=
  log.filterMap Effect.requestChunk?

/-- The audio chunks forwarded to the agent, in order. -/
def audioWrites (log : List Effect) : List Buffer :=
  log.filterMap Effect.agentAudio?

/-- The number of `end()` calls made on request and detect streams. -/
def endCalls (log : List Effect) : Nat :=
  log.countP Effect.isEndCall

/-- The number of `clear` frames written to the telephony stream. -/
def clearCount (log : List Effect) : Nat :=
  (mediaWrites log).countP OutFrame.isClear

/-- The chunks waiting in the request streams of the given pipelines. -/
def pendingFrames : List Pipeline → List RawFrame
  | [] => []
  | pl :: rest => pl.requestBuffer ++ pendingFrames rest

/-! ## Sample inputs -/

/-- A sample environment: a trigger event is configured and no redirect target. -/
def sampleEnv : Env :=
  { startingEventName := some "Welcome", sessionPath := "projects/p/agent/sessions/s"
    queryParamsSession := "projects/q/agent/sessions/s", endOfInteractionUrl := none }

/-- The frame `{event:"start", start:{callSid:"CA1", streamSid:"MZ1"}}`. -/
def startFrame : RawFrame :=
  .json { event := some "start", start := some { callSid := some "CA1", streamSid := some "MZ1" }
          media := none, mark := none }

/-- The frame `{event:"media", media:{payload:"AAAA"}}`. -/
def mediaFrame : RawFrame :=
  .json { event := some "media", start := none, media := some { payload := some "AAAA" }
          mark := none }

/-- The object `{event:"mark", mark:{name:"endOfInteraction"}}`. -/
def markMsg : Msg :=
  { event := some "mark", start := none, media := none
    mark := some { name := some "endOfInteraction" } }

/-- The frame `{event:"mark", mark:{name:"endOfInteraction"}}`. -/
def markFrame : RawFrame :=
  .json markMsg

/-- The object `{event:"connected"}`, whose tag is none of start, media, mark, stop. -/
def connectedMsg : Msg :=
  { event := some "connected", start := none, media := none, mark := none }

/-- The frame `{event:"connected"}`. -/
def connectedFrame : RawFrame :=
  .json connectedMsg

/-- The response `{queryResult:{intent:{endInteraction:true}, fulfillmentText:"Bye"}}`. -/
def byeResponse : Response :=
  { recognitionResult := none
    queryResult := some
      { intent := some { name := some "projects/p/agent/intents/bye", displayName := some "Bye"
                         endInteraction := true }
        parameters := [], fulfillmentText := "Bye" } }

/-- The response `{recognitionResult:{transcript:"hello"}}`. -/
def helloResponse : Response :=
  { recognitionResult := some { transcript := some "hello" }, queryResult := none }

/-- The session after a call has started and the agent has ended the interaction. -/
def endedWorld : World :=
  run (World.init sampleEnv) [.send startFrame, .deliver 0, .response 0 byeResponse]

/-! ## Properties -/


/-! ### Footprint of the primitive updates -/

@[simp]
theorem record_env (w : World) (e : Effect) : (w.record e).env = w.env := rfl
@[simp]
theorem record_session (w : World) (e : Effect) : (w.record e).session = w.session := rfl
@[simp]
theorem record_callSid (w : World) (e : Effect) : (w.record e).callSid = w.callSid := rfl
@[simp]
theorem record_streamSid (w : World) (e : Effect) :
    (w.record e).streamSid = w.streamSid := rfl
@[simp]
theorem record_pipelines (w : World) (e : Effect) :
    (w.record e).pipelines = w.pipelines := rfl
@[simp]
theorem record_uncaught (w : World) (e : Effect) :
    (w.record e).uncaught = w.uncaught := rfl
@[simp]
theorem record_log (w : World) (e : Effect) : (w.record e).log = w.log ++ [e] := rfl

@[simp]
theorem modifyPipeline_env (w : World) (p : Nat) (f : Pipeline → Pipeline) :
    (w.modifyPipeline p f).env = w.env := by
  unfold World.modifyPipeline; split <;> rfl
@[simp]
theorem modifyPipeline_session (w : World) (p : Nat) (f : Pipeline → Pipeline) :
    (w.modifyPipeline p f).session = w.session := by
  unfold World.modifyPipeline; split <;> rfl
@[simp]
theorem modifyPipeline_callSid (w : World) (p : Nat) (f : Pipeline → Pipeline) :
    (w.modifyPipeline p f).callSid = w.callSid := by
  unfold World.modifyPipeline; split <;> rfl
@[simp]
theorem modifyPipeline_streamSid (w : World) (p : Nat) (f : Pipeline → Pipeline) :
    (w.modifyPipeline p f).streamSid = w.streamSid := by
  unfold World.modifyPipeline; split <;> rfl
@[simp]
theorem modifyPipeline_log (w : World) (p : Nat) (f : Pipeline → Pipeline) :
    (w.modifyPipeline p f).log = w.log := by
  unfold World.modifyPipeline; split <;> rfl
@[simp]
theorem modifyPipeline_uncaught (w : World) (p : Nat) (f : Pipeline → Pipeline) :
    (w.modifyPipeline p f).uncaught = w.uncaught := by
  unfold World.modifyPipeline; split <;> rfl
@[simp]
theorem modifyPipeline_length (w : World) (p : Nat) (f : Pipeline → Pipeline) :
    (w.modifyPipeline p f).pipelines.length = w.pipelines.length := by
  unfold World.modifyPipeline; split <;> simp

theorem modifyPipeline_getElem? (w : World) (p i : Nat) (f : Pipeline → Pipeline) :
    (w.modifyPipeline p f).pipelines[i]? =
      if p = i then (w.pipelines[i]?).map f else w.pipelines[i]? := by
  unfold World.modifyPipeline
  split
  · rename_i pl hpl
    have hlt : p < w.pipelines.length := by
      rcases List.getElem?_eq_some.mp hpl with ⟨h, _⟩
      exact h
    simp only [List.getElem?_set]
    by_cases hpi : p = i
    · subst hpi; simp [hlt, hpl]
    · simp [hpi]
  · rename_i hnone
    by_cases hpi : p = i
    · subst hpi; simp [hnone]
    · simp [hpi]

/-! ### Footprint of the listeners of `server.js` -/

@[simp]
theorem emit_env (w : World) (e : Event) : (emit w e).env = w.env := by
  cases e <;> simp [emit, onCallStarted, onAudio, onInterrupted, onEndOfInteraction] <;>
    split <;> simp
@[simp]
theorem emit_pipelines (w : World) (e : Event) : (emit w e).pipelines = w.pipelines := by
  cases e <;> simp [emit, onCallStarted, onAudio, onInterrupted, onEndOfInteraction] <;>
    split <;> simp
@[simp]
theorem emit_isReady (w : World) (e : Event) :
    (emit w e).session.isReady = w.session.isReady := by
  cases e <;> simp [emit, onCallStarted, onAudio, onInterrupted, onEndOfInteraction] <;>
    split <;> simp
@[simp]
theorem emit_isStopped (w : World) (e : Event) :
    (emit w e).session.isStopped = w.session.isStopped := by
  cases e <;> simp [emit, onCallStarted, onAudio, onInterrupted, onEndOfInteraction] <;>
    split <;> simp
@[simp]
theorem emit_isFirst (w : World) (e : Event) :
    (emit w e).session.isFirst = w.session.isFirst := by
  cases e <;> simp [emit, onCallStarted, onAudio, onInterrupted, onEndOfInteraction] <;>
    split <;> simp
@[simp]
theorem emit_requestStream (w : World) (e : Event) :
    (emit w e).session.requestStream = w.session.requestStream := by
  cases e <;> simp [emit, onCallStarted, onAudio, onInterrupted, onEndOfInteraction] <;>
    split <;> simp
@[simp]
theorem emit_detectStream (w : World) (e : Event) :
    (emit w e).session.detectStream = w.session.detectStream := by
  cases e <;> simp [emit, onCallStarted, onAudio, onInterrupted, onEndOfInteraction] <;>
    split <;> simp
@[simp]
theorem emit_finalQueryResult (w : World) (e : Event) :
    (emit w e).session.finalQueryResult = w.session.finalQueryResult := by
  cases e <;> simp [emit, onCallStarted, onAudio, onInterrupted, onEndOfInteraction] <;>
    split <;> simp


theorem finish_uncaught (w : World) : (finish w).uncaught = w.uncaught := by
  unfold finish
  simp only []
  repeat' split
  all_goals simp_all

theorem finish_finish (w : World) : finish (finish w) = finish w := by
  simp [finish]

/-- Claim C3: `finish()` raises no error on any state; after it `_requestStream` and
`_detectStream` are null and `isReady` is false; a second `finish()` right after leaves the
whole state (log included) as the first call left it, so it makes no `end()` call and
emits no event. -/
theorem finish_idempotent (w : World) :
    (finish w).uncaught = w.uncaught ∧
    (finish w).session.requestStream = none ∧
    (finish w).session.detectStream = none ∧
    (finish w).session.isReady = false ∧
    finish (finish w) = finish w ∧
    endCalls (finish (finish w)).log = endCalls (finish w).log ∧
    emittedEvents (finish (finish w)).log = emittedEvents (finish w).log :=
  ⟨finish_uncaught w, by simp [finish], by simp [finish], by simp [finish], finish_finish w,
    by rw [finish_finish], by rw [finish_finish]⟩

/-- Claim C6: while the session is not stopped, the decoder of `createAudioRequestStream`
yields exactly the chunk `{inputAudio: Buffer.from(media.payload, "base64")}` for a frame
tagged `media`, and nothing for a frame with any other tag; a media frame sent first on a
fresh session, before any `start` frame, is forwarded to the agent stream right after the
initial request. -/
theorem decoder_forwards_only_media :
    (∀ (payload : String) (start : Option StartInfo) (mark : Option MarkInfo),
      createAudioRequestStream false
          (.json { event := some "media", start := start, media := some { payload := some payload }
                   mark := mark }) =
        .ok (some (.inputAudio { text := payload, encoding := "base64" }))) ∧
    (∀ msg : Msg, msg.event ≠ some "media" →
      createAudioRequestStream false (.json msg) = .ok none) ∧
    (∀ (env : Env) (payload : String),
      ((run (World.init env)
          [.send (.json { event := some "media", start := none
                          media := some { payload := some payload }, mark := none }),
           .deliver 0]).pipelines.map Pipeline.detectWrites) =
        [[.initialRequest (createDetectStream env true),
          .inputAudio { text := payload, encoding := "base64" }]]) := by
  refine ⟨?_, ?_, ?_⟩
  · intro payload start mark
    simp [createAudioRequestStream, jsonParse]
  · intro msg h
    simp [createAudioRequestStream, jsonParse, h]
  · intro env payload
    rfl


theorem emittedEvents_append (l m : List Effect) :
    emittedEvents (l ++ m) = emittedEvents l ++ emittedEvents m := by
  simp [emittedEvents]

theorem mediaWrites_append (l m : List Effect) :
    mediaWrites (l ++ m) = mediaWrites l ++ mediaWrites m := by
  simp [mediaWrites]

theorem emit_emittedEvents (w : World) (e : Event) :
    emittedEvents (emit w e).log = emittedEvents w.log ++ [e] := by
  cases e <;>
    simp [emit, onCallStarted, onAudio, onInterrupted, onEndOfInteraction, emittedEvents,
      Effect.event?] <;>
    split <;> simp [Effect.event?]

theorem emit_uncaught (w : World) (e : Event) (h : ∀ err, e ≠ .error err) :
    (emit w e).uncaught = w.uncaught := by
  cases e <;>
    simp [emit, onCallStarted, onAudio, onInterrupted, onEndOfInteraction] <;>
    first
      | (split <;> simp)
      | exact absurd rfl (h _)

/-- Claim C9, counterexample: after the session has stopped, two audio chunks make the
encoder write two `media` frames and two `endOfInteraction` marks. -/
theorem mark_written_for_each_audio_after_stop :
    endedWorld.session.isStopped = true ∧
    mediaWrites endedWorld.log = [] ∧
    mediaWrites (run endedWorld [.audioData 0 "x", .audioData 0 "y"]).log =
      [.media (some "MZ1") "x", .mark (some "MZ1") "endOfInteraction",
       .media (some "MZ1") "y", .mark (some "MZ1") "endOfInteraction"] ∧
    (mediaWrites (run endedWorld [.audioData 0 "x", .audioData 0 "y"]).log).countP
      OutFrame.isMark = 2 ∧
    (mediaWrites (run endedWorld [.audioData 0 "x", .audioData 0 "y"]).log).countP
      OutFrame.isMedia = 2 := by
  decide

/-- Claim C1, the code at the failing input: once the end-of-interaction result has been
handled (result cached, session stopped), `send` of the `endOfInteraction` mark frame only
logs a warning; nothing is written to a request stream, so no `endOfInteraction` event is
ever emitted, whether the first pipeline is still open or has completed. -/
theorem mark_after_end_of_interaction_dropped :
    endedWorld.session.isStopped = true ∧
    endedWorld.session.finalQueryResult = byeResponse.queryResult ∧
    endedWorld.uncaught = none ∧
    (send endedWorld markFrame).log = endedWorld.log ++ [.warned] ∧
    pendingFrames (send endedWorld markFrame).pipelines = [] ∧
    emittedEvents (run endedWorld [.send markFrame, .deliver 0]).log =
      [.callStarted (some "CA1") (some "MZ1")] ∧
    emittedEvents
        (run endedWorld [.pipelineDone 0 none, .send markFrame, .deliver 0, .deliver 1]).log =
      [.callStarted (some "CA1") (some "MZ1")] := by
  decide

/-- Claim C5, counterexample: two `endOfInteraction` mark frames on a fresh session emit the
event twice, with an undefined payload, although no query result has been handled. -/
theorem endOfInteraction_twice_without_result :
    emittedEvents
        (run (World.init sampleEnv)
          [.send markFrame, .deliver 0, .send markFrame, .deliver 0]).log =
      [.endOfInteraction none, .endOfInteraction none] ∧
    (run (World.init sampleEnv)
      [.send markFrame, .deliver 0, .send markFrame, .deliver 0]).session.finalQueryResult = none ∧
    (run (World.init sampleEnv)
      [.send markFrame, .deliver 0, .send markFrame, .deliver 0]).uncaught = none := by
  decide

/-- Claim C7, counterexample: a frame that `JSON.parse` rejects makes the decoder and the tap
throw, and the exception escapes the delivery; so does the frame `null`, which parses but
on which reading `msg.event` throws. -/
theorem malformed_frame_throws :
    createAudioRequestStream false (.malformed "not json") = .error .parseError ∧
    requestTap (World.init sampleEnv).session (.malformed "not json") = .error .parseError ∧
    (run (World.init sampleEnv) [.send (.malformed "not json"), .deliver 0]).uncaught =
      some .parseError ∧
    (run (World.init sampleEnv) [.send (.malformed "not json"), .deliver 0]).log =
      (run (World.init sampleEnv) [.send (.malformed "not json")]).log ∧
    createAudioRequestStream false .jsonNull = .error .typeError ∧
    (run (World.init sampleEnv) [.send .jsonNull, .deliver 0]).uncaught = some .typeError :=
  ⟨rfl, rfl, by decide, by decide, rfl, by decide⟩

/-- Claim C2, counterexample: on a fresh session the request stream is missing and the session
is not stopped, yet `send` creates the pipeline, writes the frame to the new request stream,
and the decoder forwards its audio to the agent. -/
theorem send_creates_missing_stream_and_writes :
    (World.init sampleEnv).session.requestStream = none ∧
    (World.init sampleEnv).session.isStopped = false ∧
    requestWrites (send (World.init sampleEnv) mediaFrame).log = [mediaFrame] ∧
    pendingFrames (send (World.init sampleEnv) mediaFrame).pipelines = [mediaFrame] ∧
    audioWrites (run (World.init sampleEnv) [.send mediaFrame, .deliver 0]).log =
      [{ text := "AAAA", encoding := "base64" }] := by
  decide

/-- Claim C4, counterexample: `finish()` ends the streams of the pipeline and marks the
session not ready without waiting for the completion callback, so the next `send` creates a
second pipeline while the first has not terminated. -/
theorem second_pipeline_before_termination :
    (run (World.init sampleEnv) [.send mediaFrame, .finish]).activeCount = 1 ∧
    (run (World.init sampleEnv) [.send mediaFrame, .finish, .send mediaFrame]).activeCount = 2 ∧
    (run (World.init sampleEnv)
      [.send mediaFrame, .finish, .send mediaFrame]).pipelines.map Pipeline.terminated =
        [false, false] ∧
    (run (World.init sampleEnv)
      [.send mediaFrame, .finish, .send mediaFrame]).pipelines.map Pipeline.requestEnded =
        [true, false] := by
  decide

/-- Claim C10, counterexample: an interim transcript on the first pipeline and another on the
second pipeline of the same session write two `clear` frames. -/
theorem clear_again_on_next_pipeline :
    clearCount
        (run (World.init sampleEnv)
          [.send startFrame, .deliver 0, .response 0 helloResponse, .pipelineDone 0 none,
           .send mediaFrame, .response 1 helloResponse]).log = 2 ∧
    (run (World.init sampleEnv)
      [.send startFrame, .deliver 0, .response 0 helloResponse, .pipelineDone 0 none,
       .send mediaFrame, .response 1 helloResponse]).pipelines.length = 2 := by
  decide


theorem foldl_emit_emittedEvents (events : List Event) (w : World) :
    emittedEvents (events.foldl emit w).log = emittedEvents w.log ++ events := by
  induction events generalizing w with
  | nil => simp
  | cons e es ih => simp [List.foldl_cons, ih, emit_emittedEvents]

theorem foldl_emit_session_isStopped (events : List Event) (w : World) :
    (events.foldl emit w).session.isStopped = w.session.isStopped := by
  induction events generalizing w with
  | nil => simp
  | cons e es ih => simp [List.foldl_cons, ih]

theorem pipeToDetect_session (w : World) (p : Nat) (c : AgentWrite) :
    (pipeToDetect w p c).session = w.session := by
  unfold pipeToDetect
  repeat' split
  all_goals simp

theorem pipeToDetect_emittedEvents (w : World) (p : Nat) (c : AgentWrite) :
    emittedEvents (pipeToDetect w p c).log = emittedEvents w.log := by
  unfold pipeToDetect
  repeat' split
  all_goals simp [emittedEvents, Effect.event?]

theorem pipeToDetect_uncaught (w : World) (p : Nat) (c : AgentWrite) :
    (pipeToDetect w p c).uncaught = w.uncaught := by
  unfold pipeToDetect
  repeat' split
  all_goals simp

theorem decoder_unrecognized (isStopped : Bool) (msg : Msg) (h : msg.event ≠ some "media") :
    createAudioRequestStream isStopped (.json msg) = .ok none := by
  simp [createAudioRequestStream, jsonParse, h]

theorem tap_unrecognized (s : Session) (msg : Msg) (h1 : msg.event ≠ some "start")
    (h3 : msg.event ≠ some "mark") : requestTap s (.json msg) = .ok [] := by
  simp [requestTap, jsonParse, h1, h3]

/-- Claim C7, amended: a frame that parses to a value other than `null` and whose event tag is
none of start, media, mark, stop is dropped silently: the decoder yields nothing, the tap
emits nothing, and its delivery changes neither the log nor the session nor the uncaught
exception; a frame that fails to parse makes `JSON.parse` throw in the decoder and in the
tap, and on the frame `null` both throw a `TypeError` when they read `msg.event`. -/
theorem unrecognized_tag_dropped_silently (s : Session) (isStopped : Bool) (msg : Msg)
    (h1 : msg.event ≠ some "start") (h2 : msg.event ≠ some "media")
    (h3 : msg.event ≠ some "mark") (_h4 : msg.event ≠ some "stop") :
    createAudioRequestStream isStopped (.json msg) = .ok none ∧
    requestTap s (.json msg) = .ok [] ∧
    (∀ (w : World) (p : Nat) (pl : Pipeline) (rest : List RawFrame),
      w.pipelines[p]? = some pl → pl.requestBuffer = .json msg :: rest →
        (deliver w p).log = w.log ∧ (deliver w p).uncaught = w.uncaught ∧
        (deliver w p).session = w.session) ∧
    (∀ text : String,
      createAudioRequestStream isStopped (.malformed text) = .error .parseError ∧
      requestTap s (.malformed text) = .error .parseError) ∧
    createAudioRequestStream isStopped .jsonNull = .error .typeError ∧
    requestTap s .jsonNull = .error .typeError := by
  refine ⟨decoder_unrecognized isStopped msg h2, tap_unrecognized s msg h1 h3, ?_, ?_, rfl, rfl⟩
  · intro w p pl rest hp hbuf
    unfold deliver
    simp only [hp, hbuf]
    split
    · simp
    · simp [decoder_unrecognized _ msg h2, tap_unrecognized _ msg h1 h3]
  · intro text
    exact ⟨rfl, rfl⟩

theorem tap_mark (s : Session) (msg : Msg) (q : Option FinalQueryResult)
    (hev : msg.event = some "mark") (hmk : msg.mark = some { name := some "endOfInteraction" })
    (hq : getFinalQueryResult s = .ok q) :
    requestTap s (.json msg) = .ok [.endOfInteraction q] := by
  simp [requestTap, jsonParse, hev, hmk, hq]

theorem tap_endOfInteraction_origin (s : Session) (data : RawFrame) (events : List Event)
    (q : Option FinalQueryResult) (h : requestTap s data = .ok events)
    (hmem : Event.endOfInteraction q ∈ events) :
    events = [.endOfInteraction q] ∧ getFinalQueryResult s = .ok q ∧
    ∃ msg mk, data = .json msg ∧ msg.event = some "mark" ∧ msg.mark = some mk ∧
      mk.name = some "endOfInteraction" := by
  cases data with
  | malformed text => simp [requestTap, jsonParse] at h
  | jsonNull => simp [requestTap, jsonParse] at h
  | json msg =>
    unfold requestTap at h
    simp only [jsonParse] at h
    by_cases hs : msg.event = some "start"
    · have hm : msg.event ≠ some "mark" := by rw [hs]; decide
      simp only [hs, hm, if_true, if_false] at h
      cases hst : msg.start with
      | none => simp [hst] at h
      | some st =>
        simp [hst] at h
        subst h
        simp at hmem
    · simp only [hs, if_false] at h
      by_cases hm : msg.event = some "mark"
      · simp only [hm, if_true] at h
        cases hmk : msg.mark with
        | none => simp [hmk] at h
        | some mk =>
          simp only [hmk] at h
          by_cases hn : mk.name = some "endOfInteraction"
          · simp only [hn, if_true] at h
            cases hq : getFinalQueryResult s with
            | error e => simp [hq] at h
            | ok q0 =>
              simp [hq] at h
              subst h
              simp at hmem
              subst hmem
              exact ⟨rfl, rfl, msg, mk, rfl, hm, hmk, hn⟩
          · simp [hn] at h
            subst h
            simp at hmem
      · simp [hm] at h
        subst h
        simp at hmem


/-- The pipeline that `startPipeline` builds. -/
theorem startPipeline_fst (w : World) :
    (startPipeline w).1 =
      if w.session.isReady then w
      else
        { w with
          pipelines := w.pipelines ++
            [{ requestBuffer := [], requestEnded := false, requestClosed := false
               detectWrites := [.initialRequest (createDetectStream w.env w.session.isFirst)]
               detectEnded := false, detectDestroyed := false, terminated := false }]
          session :=
            { w.session with
              requestStream := some w.pipelines.length
              detectStream := some w.pipelines.length
              isFirst := false
              isInterrupted := false
              isReady := true }
          log := w.log ++
            [.detectWrite w.pipelines.length
              (.initialRequest (createDetectStream w.env w.session.isFirst))] } := by
  unfold startPipeline
  by_cases h : w.session.isReady = true
  · simp [h]
  · by_cases hf : w.session.isFirst = true <;> simp [h, hf]

theorem startPipeline_snd (w : World) :
    (startPipeline w).2 =
      if w.session.isReady then w.session.requestStream else some w.pipelines.length := by
  unfold startPipeline
  by_cases h : w.session.isReady = true <;> simp [h]

theorem send_cases (w : World) (frame : RawFrame) :
    send w frame = (startPipeline w).1.record .warned ∨
    (w.session.isStopped = false ∧ ∃ id, (startPipeline w).2 = some id ∧
      (startPipeline w).1.writableEnded id = false ∧
      send w frame = (startPipeline w).1.writeRequest id frame) := by
  unfold send
  simp only []
  split
  · exact Or.inl rfl
  · rename_i id hid
    by_cases hc : ((startPipeline w).1.writableEnded id || (startPipeline w).1.session.isStopped) = true
    · rw [if_pos hc]
      exact Or.inl rfl
    · rw [if_neg hc]
      refine Or.inr ⟨?_, id, hid, ?_, rfl⟩
      · simp [startPipeline_fst] at hc
        by_cases hr : w.session.isReady = true <;> simp [hr] at hc <;> simp [hc]
      · simp at hc; simp [hc]


theorem pendingFrames_append (a b : List Pipeline) :
    pendingFrames (a ++ b) = pendingFrames a ++ pendingFrames b := by
  induction a with
  | nil => simp [pendingFrames]
  | cons x xs ih => simp [pendingFrames, ih]

theorem startPipeline_uncaught (w : World) : (startPipeline w).1.uncaught = w.uncaught := by
  rw [startPipeline_fst]; split <;> rfl

theorem startPipeline_env (w : World) : (startPipeline w).1.env = w.env := by
  rw [startPipeline_fst]; split <;> rfl

theorem startPipeline_isStopped (w : World) :
    (startPipeline w).1.session.isStopped = w.session.isStopped := by
  rw [startPipeline_fst]; split <;> rfl

theorem startPipeline_pendingFrames (w : World) :
    pendingFrames (startPipeline w).1.pipelines = pendingFrames w.pipelines := by
  rw [startPipeline_fst]; split <;> simp [pendingFrames_append, pendingFrames]

theorem startPipeline_emittedEvents (w : World) :
    emittedEvents (startPipeline w).1.log = emittedEvents w.log := by
  rw [startPipeline_fst]; split <;> simp [emittedEvents, Effect.event?]

theorem startPipeline_audioWrites (w : World) :
    audioWrites (startPipeline w).1.log = audioWrites w.log := by
  rw [startPipeline_fst]; split <;> simp [audioWrites, Effect.agentAudio?]

theorem startPipeline_requestWrites (w : World) :
    requestWrites (startPipeline w).1.log = requestWrites w.log := by
  rw [startPipeline_fst]; split <;> simp [requestWrites, Effect.requestChunk?]

theorem startPipeline_mediaWrites (w : World) :
    mediaWrites (startPipeline w).1.log = mediaWrites w.log := by
  rw [startPipeline_fst]; split <;> simp [mediaWrites, Effect.outFrame?]

theorem send_of_dropped (w : World) (frame : RawFrame)
    (h : w.session.isStopped = true ∨
      (w.session.isReady = true ∧
        (w.session.requestStream = none ∨
          ∃ id, w.session.requestStream = some id ∧ w.writableEnded id = true))) :
    send w frame = (startPipeline w).1.record .warned := by
  rcases send_cases w frame with hs | ⟨hns, id, hid, hwe, _⟩
  · exact hs
  · rcases h with h | ⟨hr, h⟩
    · rw [h] at hns; cases hns
    · rw [startPipeline_snd] at hid
      rw [startPipeline_fst] at hwe
      simp only [hr, if_true] at hid hwe
      rcases h with h | ⟨id2, h, hw⟩
      · rw [h] at hid; cases hid
      · rw [h] at hid
        cases hid
        rw [hw] at hwe; cases hwe

theorem emit_audioWrites (w : World) (e : Event) :
    audioWrites (emit w e).log = audioWrites w.log := by
  cases e <;>
    simp [emit, onCallStarted, onAudio, onInterrupted, onEndOfInteraction, audioWrites,
      Effect.agentAudio?] <;>
    split <;> simp [Effect.agentAudio?]

theorem emit_agentAudio_filterMap (w : World) (e : Event) :
    List.filterMap Effect.agentAudio? (emit w e).log =
      List.filterMap Effect.agentAudio? w.log :=
  emit_audioWrites w e

theorem foldl_emit_audioWrites (events : List Event) (w : World) :
    audioWrites (events.foldl emit w).log = audioWrites w.log := by
  induction events generalizing w with
  | nil => simp
  | cons e es ih => simp [List.foldl_cons, ih, emit_audioWrites]

theorem send_audioWrites (w : World) (frame : RawFrame) :
    audioWrites (send w frame).log = audioWrites w.log := by
  rcases send_cases w frame with hs | ⟨_, id, _, _, hs⟩
  · rw [hs, record_log]
    simp [audioWrites, Effect.agentAudio?]
    exact startPipeline_audioWrites w
  · rw [hs]
    simp [World.writeRequest, audioWrites, Effect.agentAudio?]
    exact startPipeline_audioWrites w

theorem send_isStopped (w : World) (frame : RawFrame) :
    (send w frame).session.isStopped = w.session.isStopped := by
  rcases send_cases w frame with hs | ⟨_, id, _, _, hs⟩ <;>
    rw [hs] <;> simp [World.writeRequest, startPipeline_isStopped]

theorem finish_audioWrites (w : World) : audioWrites (finish w).log = audioWrites w.log := by
  unfold finish
  simp only []
  repeat' split
  all_goals simp_all [audioWrites, Effect.agentAudio?]

theorem finish_isStopped (w : World) : (finish w).session.isStopped = w.session.isStopped := by
  unfold finish
  simp only []
  repeat' split
  all_goals simp_all

theorem onResponseData_audioWrites (w : World) (data : Response) :
    audioWrites (onResponseData w data).log = audioWrites w.log := by
  unfold onResponseData stop
  simp only []
  repeat' split
  all_goals simp_all [emit_agentAudio_filterMap, audioWrites, Effect.agentAudio?]

theorem onResponseData_isStopped (w : World) (data : Response)
    (h : w.session.isStopped = true) : (onResponseData w data).session.isStopped = true := by
  unfold onResponseData stop
  simp only []
  repeat' split
  all_goals simp_all

theorem onPipelineDone_audioWrites (w : World) (err : Option JsError) :
    audioWrites (onPipelineDone w err).log = audioWrites w.log := by
  unfold onPipelineDone
  simp only []
  repeat' split
  all_goals simp_all [emit_audioWrites]

theorem onPipelineDone_isStopped (w : World) (err : Option JsError) :
    (onPipelineDone w err).session.isStopped = w.session.isStopped := by
  unfold onPipelineDone
  simp only []
  repeat' split
  all_goals simp_all

theorem decoder_stopped (chunk : RawFrame) (out : Option AgentWrite)
    (h : createAudioRequestStream true chunk = .ok out) : out = none := by
  cases chunk with
  | malformed text => simp [createAudioRequestStream, jsonParse] at h
  | jsonNull => simp [createAudioRequestStream, jsonParse] at h
  | json msg =>
    by_cases hm : msg.event = some "media"
    · simp [createAudioRequestStream, jsonParse, hm] at h
      exact h.symm
    · simp [createAudioRequestStream, jsonParse, hm] at h
      exact h.symm

theorem deliver_stopped (w : World) (p : Nat) (h : w.session.isStopped = true) :
    (deliver w p).session.isStopped = true ∧
    audioWrites (deliver w p).log = audioWrites w.log := by
  unfold deliver
  split
  · exact ⟨h, rfl⟩
  · split
    · exact ⟨h, rfl⟩
    · split
      · exact ⟨h, rfl⟩
      · simp only [modifyPipeline_session, h]
        split
        · simp [h]
        · rename_i out hout
          have := decoder_stopped _ _ hout
          subst this
          simp only []
          split
          · simp [h]
          · simp [foldl_emit_session_isStopped, foldl_emit_audioWrites, h]

theorem step_stopped (w : World) (s : Step) (h : w.session.isStopped = true) :
    (step w s).session.isStopped = true ∧ audioWrites (step w s).log = audioWrites w.log := by
  unfold step
  split
  · exact ⟨h, rfl⟩
  · cases s with
    | send frame => simp [send_isStopped, send_audioWrites, h]
    | deliver p => exact deliver_stopped w p h
    | stop => simp [stop]
    | finish => simp [finish_isStopped, finish_audioWrites, h]
    | response p data =>
      simp only []
      split
      · exact ⟨onResponseData_isStopped w data h, onResponseData_audioWrites w data⟩
      · exact ⟨h, rfl⟩
    | audioData p payload =>
      simp only []
      split
      · simp [emit_audioWrites, h]
      · exact ⟨h, rfl⟩
    | pipelineDone p err =>
      simp only []
      split
      · simp [onPipelineDone_isStopped, onPipelineDone_audioWrites, h]
      · exact ⟨h, rfl⟩
    | requestClose p =>
      simp only []
      split
      · simp [onRequestClose, h]
      · exact ⟨h, rfl⟩

theorem run_stopped (steps : List Step) (w : World) (h : w.session.isStopped = true) :
    (run w steps).session.isStopped = true ∧ audioWrites (run w steps).log = audioWrites w.log := by
  induction steps generalizing w with
  | nil => exact ⟨h, rfl⟩
  | cons s rest ih =>
    have hs := step_stopped w s h
    have := ih (step w s) hs.1
    simp only [run, List.foldl_cons] at this ⊢
    exact ⟨this.1, this.2.trans hs.2⟩

/-- Claim C2, amended: when the session is stopped, or is ready with a request stream that
is missing or has `writableEnded`, `send` writes nothing to any request stream, raises
nothing, emits no event and forwards no audio; and once the session is stopped no step
sequence forwards an `inputAudio` chunk to an agent stream. -/
theorem send_drops_when_stopped_or_unwritable :
    (∀ (w : World) (frame : RawFrame),
      (w.session.isStopped = true ∨
        (w.session.isReady = true ∧
          (w.session.requestStream = none ∨
            ∃ id, w.session.requestStream = some id ∧ w.writableEnded id = true))) →
      (send w frame).uncaught = w.uncaught ∧
      requestWrites (send w frame).log = requestWrites w.log ∧
      pendingFrames (send w frame).pipelines = pendingFrames w.pipelines ∧
      emittedEvents (send w frame).log = emittedEvents w.log ∧
      audioWrites (send w frame).log = audioWrites w.log) ∧
    (∀ (w : World) (steps : List Step), w.session.isStopped = true →
      audioWrites (run w steps).log = audioWrites w.log) := by
  refine ⟨?_, fun w steps h => (run_stopped steps w h).2⟩
  intro w frame h
  rw [send_of_dropped w frame h]
  refine ⟨?_, ?_, ?_, ?_, ?_⟩
  · simp [startPipeline_uncaught]
  · simp [requestWrites, Effect.requestChunk?]
    exact startPipeline_requestWrites w
  · simp [startPipeline_pendingFrames]
  · simp [emittedEvents, Effect.event?]
    exact startPipeline_emittedEvents w
  · simp [audioWrites, Effect.agentAudio?]
    exact startPipeline_audioWrites w


theorem emit_event_filterMap (w : World) (e : Event) :
    List.filterMap Effect.event? (emit w e).log = List.filterMap Effect.event? w.log ++ [e] :=
  emit_emittedEvents w e

theorem send_emittedEvents (w : World) (frame : RawFrame) :
    emittedEvents (send w frame).log = emittedEvents w.log := by
  rcases send_cases w frame with hs | ⟨_, id, _, _, hs⟩
  · rw [hs, record_log]
    simp [emittedEvents, Effect.event?]
    exact startPipeline_emittedEvents w
  · rw [hs]
    simp [World.writeRequest, emittedEvents, Effect.event?]
    exact startPipeline_emittedEvents w

theorem finish_emittedEvents (w : World) :
    emittedEvents (finish w).log = emittedEvents w.log := by
  unfold finish
  simp only []
  repeat' split
  all_goals simp_all [emittedEvents, Effect.event?]

theorem onResponseData_emittedEvents (w : World) (data : Response) :
    emittedEvents (onResponseData w data).log =
      emittedEvents w.log ++
        (match data.recognitionResult with
          | some r =>
            match r.transcript with
            | some t => if t.length > 0 then [.interrupted t] else []
            | none => []
          | none => []) := by
  unfold onResponseData stop
  simp only []
  repeat' split
  all_goals simp_all [emit_event_filterMap, emittedEvents, Effect.event?]

theorem onPipelineDone_emittedEvents (w : World) (err : Option JsError) :
    emittedEvents (onPipelineDone w err).log =
      emittedEvents w.log ++ (match err with | some e => [.error e] | none => []) := by
  unfold onPipelineDone
  simp only []
  repeat' split
  all_goals simp_all [emit_event_filterMap, emittedEvents, Effect.event?]

theorem step_not_deliver_endOfInteraction (w : World) (st : Step) (h : ∀ p, st ≠ .deliver p) :
    (emittedEvents (step w st).log).countP Event.isEndOfInteraction =
      (emittedEvents w.log).countP Event.isEndOfInteraction := by
  unfold step
  split
  · rfl
  · cases st with
    | send frame => simp [send_emittedEvents]
    | deliver p => exact absurd rfl (h p)
    | stop => simp [stop]
    | finish => simp [finish_emittedEvents]
    | response p data =>
      simp only []
      split
      · rw [onResponseData_emittedEvents]
        repeat' split
        all_goals simp [Event.isEndOfInteraction]
      · rfl
    | audioData p payload =>
      simp only []
      split
      · simp [emit_emittedEvents, Event.isEndOfInteraction]
      · rfl
    | pipelineDone p err =>
      simp only []
      split
      · rw [onPipelineDone_emittedEvents]
        cases err <;> simp [emittedEvents, Event.isEndOfInteraction]
      · rfl
    | requestClose p =>
      simp only []
      split
      · simp [onRequestClose, emittedEvents]
      · rfl

theorem deliver_emittedEvents (w : World) (p : Nat) :
    emittedEvents (deliver w p).log = emittedEvents w.log ∨
    ∃ pl chunk rest events, w.pipelines[p]? = some pl ∧ pl.terminated = false ∧
      pl.requestClosed = false ∧ pl.requestBuffer = chunk :: rest ∧
      requestTap w.session chunk = .ok events ∧
      emittedEvents (deliver w p).log = emittedEvents w.log ++ events := by
  unfold deliver
  split
  · exact Or.inl rfl
  · rename_i pl hpl
    split
    · exact Or.inl rfl
    · rename_i hflags
      split
      · exact Or.inl rfl
      · rename_i chunk rest hbuf
        simp only [modifyPipeline_session]
        split
        · left; simp
        · rename_i out hout
          have hsess : (match out with
              | some c => pipeToDetect (w.modifyPipeline p fun pl =>
                  { pl with requestBuffer := rest }) p c
              | none => w.modifyPipeline p fun pl =>
                  { pl with requestBuffer := rest }).session = w.session := by
            cases out <;> simp [pipeToDetect_session]
          have hlog : emittedEvents (match out with
              | some c => pipeToDetect (w.modifyPipeline p fun pl =>
                  { pl with requestBuffer := rest }) p c
              | none => w.modifyPipeline p fun pl =>
                  { pl with requestBuffer := rest }).log = emittedEvents w.log := by
            cases out <;> simp [pipeToDetect_emittedEvents]
          simp only [hsess]
          split
          · left; simpa using hlog
          · rename_i events hev
            right
            refine ⟨pl, chunk, rest, events, hpl, ?_, ?_, hbuf, hev, ?_⟩
            · simp at hflags; exact hflags.1
            · simp at hflags; exact hflags.2
            · rw [foldl_emit_emittedEvents, hlog]


/-- Claim C5, amended: delivering an `endOfInteraction` mark frame to the tap emits
`endOfInteraction` once, carrying `getFinalQueryResult()` of that moment; no step other
than a delivery changes the number of `endOfInteraction` events; the events a delivery
emits are those of the tap; and the tap emits the event only for such a mark frame. -/
theorem endOfInteraction_once_per_delivered_mark :
    (∀ (w : World) (p : Nat) (pl : Pipeline) (msg : Msg) (rest : List RawFrame)
        (q : Option FinalQueryResult),
      w.uncaught = none → w.pipelines[p]? = some pl → pl.terminated = false →
      pl.requestClosed = false → pl.requestBuffer = .json msg :: rest →
      msg.event = some "mark" → msg.mark = some { name := some "endOfInteraction" } →
      getFinalQueryResult w.session = .ok q →
      emittedEvents (step w (.deliver p)).log = emittedEvents w.log ++ [.endOfInteraction q]) ∧
    (∀ (w : World) (st : Step), (∀ p, st ≠ .deliver p) →
      (emittedEvents (step w st).log).countP Event.isEndOfInteraction =
        (emittedEvents w.log).countP Event.isEndOfInteraction) ∧
    (∀ (w : World) (p : Nat),
      emittedEvents (step w (.deliver p)).log = emittedEvents w.log ∨
      ∃ pl chunk rest events, w.pipelines[p]? = some pl ∧ pl.requestBuffer = chunk :: rest ∧
        requestTap w.session chunk = .ok events ∧
        emittedEvents (step w (.deliver p)).log = emittedEvents w.log ++ events) ∧
    (∀ (s : Session) (data : RawFrame) (events : List Event) (q : Option FinalQueryResult),
      requestTap s data = .ok events → Event.endOfInteraction q ∈ events →
      events = [.endOfInteraction q] ∧ getFinalQueryResult s = .ok q ∧
      ∃ msg mk, data = .json msg ∧ msg.event = some "mark" ∧ msg.mark = some mk ∧
        mk.name = some "endOfInteraction") := by
  refine ⟨?_, step_not_deliver_endOfInteraction, ?_, tap_endOfInteraction_origin⟩
  · intro w p pl msg rest q hu hp ht hc hbuf hev hmk hq
    have hm : msg.event ≠ some "media" := by rw [hev]; decide
    have htap := tap_mark w.session msg q hev hmk hq
    unfold step deliver
    simp [hu, hp, ht, hc, hbuf, decoder_unrecognized _ msg hm, htap, emit_emittedEvents]
  · intro w p
    unfold step
    split
    · exact Or.inl rfl
    · rcases deliver_emittedEvents w p with h | ⟨pl, chunk, rest, events, h1, _, _, h2, h3, h4⟩
      · exact Or.inl h
      · exact Or.inr ⟨pl, chunk, rest, events, h1, h2, h3, h4⟩

/-! ### Active pipelines -/

theorem filter_set_same (l : List Pipeline) (p : Nat) (pl pl2 : Pipeline)
    (h : l[p]? = some pl) (ht : pl2.terminated = pl.terminated) :
    ((l.set p pl2).filter (fun x => !x.terminated)).length =
      (l.filter (fun x => !x.terminated)).length := by
  induction l generalizing p with
  | nil => simp
  | cons a l ih =>
    cases p with
    | zero =>
      simp at h
      subst h
      cases hb : a.terminated <;> simp [List.filter_cons, ht, hb]
    | succ n =>
      simp at h
      have := ih n h
      simp only [List.set_cons_succ, List.filter_cons]
      split <;> simp [this]

theorem filter_set_terminated (l : List Pipeline) (p : Nat) (pl pl2 : Pipeline)
    (h : l[p]? = some pl) (h1 : pl.terminated = false) (h2 : pl2.terminated = true) :
    ((l.set p pl2).filter (fun x => !x.terminated)).length + 1 =
      (l.filter (fun x => !x.terminated)).length := by
  induction l generalizing p with
  | nil => simp at h
  | cons a l ih =>
    cases p with
    | zero =>
      simp at h
      subst h
      simp [List.filter_cons, h1, h2]
    | succ n =>
      simp at h
      have := ih n h
      simp only [List.set_cons_succ, List.filter_cons]
      split
      · simp only [List.length_cons]; omega
      · exact this

theorem activeCount_modifyPipeline (w : World) (p : Nat) (f : Pipeline → Pipeline)
    (hf : ∀ pl, (f pl).terminated = pl.terminated) :
    (w.modifyPipeline p f).activeCount = w.activeCount := by
  unfold World.modifyPipeline World.activeCount
  split
  · rename_i pl hpl
    exact filter_set_same w.pipelines p pl (f pl) hpl (hf pl)
  · rfl

theorem activeCount_terminate (w : World) (p : Nat) (f : Pipeline → Pipeline)
    (hf : ∀ pl, (f pl).terminated = true) (hp : w.active p = true) :
    (w.modifyPipeline p f).activeCount + 1 = w.activeCount := by
  unfold World.active at hp
  unfold World.modifyPipeline World.activeCount
  split
  · rename_i pl hpl
    rw [hpl] at hp
    simp at hp
    exact filter_set_terminated w.pipelines p pl (f pl) hpl hp (hf pl)
  · rename_i hnone
    rw [hnone] at hp
    cases hp

theorem activeCount_congr (w v : World) (h : v.pipelines = w.pipelines) :
    v.activeCount = w.activeCount := by
  unfold World.activeCount; rw [h]

theorem startPipeline_activeCount (w : World) :
    (startPipeline w).1.activeCount =
      if w.session.isReady then w.activeCount else w.activeCount + 1 := by
  rw [startPipeline_fst]
  split
  · rfl
  · simp [World.activeCount, List.filter_append]

theorem startPipeline_isReady (w : World) : (startPipeline w).1.session.isReady = true := by
  rw [startPipeline_fst]
  split
  · assumption
  · rfl

theorem send_activeCount (w : World) (frame : RawFrame) :
    (send w frame).activeCount = (startPipeline w).1.activeCount ∧
    (send w frame).session.isReady = true := by
  rcases send_cases w frame with hs | ⟨_, id, _, _, hs⟩
  · rw [hs]
    exact ⟨activeCount_congr _ _ rfl, by simp [startPipeline_isReady]⟩
  · rw [hs]
    refine ⟨?_, by simp [World.writeRequest, startPipeline_isReady]⟩
    unfold World.writeRequest
    rw [activeCount_congr _ _ (record_pipelines _ _)]
    exact activeCount_modifyPipeline _ _ _ (fun _ => rfl)

theorem foldl_emit_pipelines (events : List Event) (w : World) :
    (events.foldl emit w).pipelines = w.pipelines := by
  induction events generalizing w with
  | nil => simp
  | cons e es ih => simp [List.foldl_cons, ih]

theorem foldl_emit_isReady (events : List Event) (w : World) :
    (events.foldl emit w).session.isReady = w.session.isReady := by
  induction events generalizing w with
  | nil => simp
  | cons e es ih => simp [List.foldl_cons, ih]

theorem pipeToDetect_activeCount (w : World) (p : Nat) (c : AgentWrite) :
    (pipeToDetect w p c).activeCount = w.activeCount := by
  unfold pipeToDetect
  split
  · split
    · rfl
    · rw [activeCount_congr _ _ (record_pipelines _ _)]
      exact activeCount_modifyPipeline _ _ _ (fun _ => rfl)
  · rfl

theorem deliver_activeCount (w : World) (p : Nat) :
    (deliver w p).activeCount = w.activeCount ∧
    (deliver w p).session.isReady = w.session.isReady := by
  unfold deliver
  split
  · exact ⟨rfl, rfl⟩
  · split
    · exact ⟨rfl, rfl⟩
    · split
      · exact ⟨rfl, rfl⟩
      · rename_i chunk rest hbuf
        have h1 : (w.modifyPipeline p fun pl => { pl with requestBuffer := rest }).activeCount =
            w.activeCount := activeCount_modifyPipeline _ _ _ (fun _ => rfl)
        dsimp only []
        split
        · exact ⟨(activeCount_congr _ _ rfl).trans h1, by simp⟩
        · rename_i out hout
          have h2 : (match out with
              | some c => pipeToDetect (w.modifyPipeline p fun pl =>
                  { pl with requestBuffer := rest }) p c
              | none => w.modifyPipeline p fun pl =>
                  { pl with requestBuffer := rest }).activeCount = w.activeCount := by
            cases out
            · exact h1
            · exact (pipeToDetect_activeCount _ _ _).trans h1
          have h3 : (match out with
              | some c => pipeToDetect (w.modifyPipeline p fun pl =>
                  { pl with requestBuffer := rest }) p c
              | none => w.modifyPipeline p fun pl =>
                  { pl with requestBuffer := rest }).session = w.session := by
            cases out <;> simp [pipeToDetect_session]
          split
          · exact ⟨(activeCount_congr _ _ rfl).trans h2, by simp [h3]⟩
          · refine ⟨(activeCount_congr _ _ (foldl_emit_pipelines _ _)).trans h2, ?_⟩
            rw [foldl_emit_isReady, h3]

theorem activeCount_eq_of_map (w v : World)
    (h : v.pipelines.map Pipeline.terminated = w.pipelines.map Pipeline.terminated) :
    v.activeCount = w.activeCount := by
  have key : ∀ l : List Pipeline,
      (l.filter (fun x => !x.terminated)).length =
        ((l.map Pipeline.terminated).filter (fun b => !b)).length := by
    intro l
    induction l with
    | nil => rfl
    | cons a l ih =>
      simp only [List.filter_cons, List.map_cons]
      split <;> simp [ih]
  unfold World.activeCount
  rw [key, key, h]

theorem modifyPipeline_map_terminated (w : World) (p : Nat) (f : Pipeline → Pipeline)
    (hf : ∀ pl, (f pl).terminated = pl.terminated) :
    (w.modifyPipeline p f).pipelines.map Pipeline.terminated =
      w.pipelines.map Pipeline.terminated := by
  apply List.ext_getElem?
  intro i
  simp only [List.getElem?_map, modifyPipeline_getElem?]
  split
  · cases w.pipelines[i]? <;> simp [hf]
  · rfl

theorem onResponseData_terminated (w : World) (data : Response) :
    (onResponseData w data).pipelines.map Pipeline.terminated =
      w.pipelines.map Pipeline.terminated := by
  unfold onResponseData stop
  simp only []
  repeat' split
  all_goals simp_all [modifyPipeline_map_terminated]

theorem onResponseData_isReady (w : World) (data : Response) :
    (onResponseData w data).session.isReady = w.session.isReady := by
  unfold onResponseData stop
  simp only []
  repeat' split
  all_goals simp_all

theorem onResponseData_activeCount (w : World) (data : Response) :
    (onResponseData w data).activeCount = w.activeCount ∧
    (onResponseData w data).session.isReady = w.session.isReady :=
  ⟨activeCount_eq_of_map _ _ (onResponseData_terminated w data), onResponseData_isReady w data⟩


theorem onPipelineDone_pipelines (w : World) (err : Option JsError) :
    (onPipelineDone w err).pipelines = w.pipelines := by
  unfold onPipelineDone
  simp only []
  repeat' split
  all_goals simp_all

theorem onPipelineDone_isReady (w : World) (err : Option JsError) :
    (onPipelineDone w err).session.isReady = false ∨
    (onPipelineDone w err).session.isReady = w.session.isReady := by
  unfold onPipelineDone
  simp only []
  repeat' split
  all_goals simp_all

/-! ### What is written to the agent streams -/

theorem modifyPipeline_map_detectWrites (w : World) (p : Nat) (f : Pipeline → Pipeline)
    (hf : ∀ pl, (f pl).detectWrites = pl.detectWrites) :
    (w.modifyPipeline p f).pipelines.map Pipeline.detectWrites =
      w.pipelines.map Pipeline.detectWrites := by
  apply List.ext_getElem?
  intro i
  simp only [List.getElem?_map, modifyPipeline_getElem?]
  split
  · cases w.pipelines[i]? <;> simp [hf]
  · rfl

theorem foldl_emit_env (events : List Event) (w : World) :
    (events.foldl emit w).env = w.env := by
  induction events generalizing w with
  | nil => simp
  | cons e es ih => simp [List.foldl_cons, ih]

theorem foldl_emit_isFirst (events : List Event) (w : World) :
    (events.foldl emit w).session.isFirst = w.session.isFirst := by
  induction events generalizing w with
  | nil => simp
  | cons e es ih => simp [List.foldl_cons, ih]

theorem send_frame (w : World) (frame : RawFrame) :
    (send w frame).env = w.env ∧
    (send w frame).session.isFirst = (startPipeline w).1.session.isFirst ∧
    (send w frame).session.isInterrupted = (startPipeline w).1.session.isInterrupted ∧
    (send w frame).pipelines.map Pipeline.detectWrites =
      (startPipeline w).1.pipelines.map Pipeline.detectWrites ∧
    (send w frame).pipelines.length = (startPipeline w).1.pipelines.length ∧
    mediaWrites (send w frame).log = mediaWrites w.log := by
  rcases send_cases w frame with hs | ⟨_, id, _, _, hs⟩
  · rw [hs]
    refine ⟨by simp [startPipeline_env], rfl, rfl, rfl, rfl, ?_⟩
    simp [mediaWrites, Effect.outFrame?]
    exact startPipeline_mediaWrites w
  · rw [hs]
    unfold World.writeRequest
    refine ⟨by simp [startPipeline_env], by simp, by simp, ?_, by simp, ?_⟩
    · simp [modifyPipeline_map_detectWrites]
    · simp [mediaWrites, Effect.outFrame?]
      exact startPipeline_mediaWrites w

theorem finish_frame (w : World) :
    (finish w).env = w.env ∧
    (finish w).session.isFirst = w.session.isFirst ∧
    (finish w).session.isInterrupted = w.session.isInterrupted ∧
    (finish w).pipelines.map Pipeline.detectWrites = w.pipelines.map Pipeline.detectWrites ∧
    (finish w).pipelines.length = w.pipelines.length ∧
    mediaWrites (finish w).log = mediaWrites w.log := by
  unfold finish
  simp only []
  refine ⟨?_, ?_, ?_, ?_, ?_, ?_⟩
  all_goals repeat' split
  all_goals simp_all [modifyPipeline_map_detectWrites, mediaWrites, Effect.outFrame?]

theorem onResponseData_frame (w : World) (data : Response) :
    (onResponseData w data).env = w.env ∧
    (onResponseData w data).session.isFirst = w.session.isFirst ∧
    (onResponseData w data).pipelines.map Pipeline.detectWrites =
      w.pipelines.map Pipeline.detectWrites ∧
    (onResponseData w data).pipelines.length = w.pipelines.length := by
  unfold onResponseData stop
  simp only []
  refine ⟨?_, ?_, ?_, ?_⟩
  all_goals repeat' split
  all_goals simp_all [modifyPipeline_map_detectWrites]

theorem onPipelineDone_frame (w : World) (err : Option JsError) :
    (onPipelineDone w err).env = w.env ∧
    (onPipelineDone w err).session.isFirst = w.session.isFirst := by
  unfold onPipelineDone
  simp only []
  refine ⟨?_, ?_⟩
  all_goals repeat' split
  all_goals simp_all

theorem decoder_output (isStopped : Bool) (chunk : RawFrame) (c : AgentWrite)
    (h : createAudioRequestStream isStopped chunk = .ok (some c)) : ∃ b, c = .inputAudio b := by
  cases chunk with
  | malformed text => simp [createAudioRequestStream, jsonParse] at h
  | jsonNull => simp [createAudioRequestStream, jsonParse] at h
  | json msg =>
    unfold createAudioRequestStream at h
    simp only [jsonParse] at h
    repeat' split at h
    all_goals first
      | (cases h; exact ⟨_, rfl⟩)
      | simp_all

theorem pipeToDetect_env (w : World) (p : Nat) (c : AgentWrite) :
    (pipeToDetect w p c).env = w.env := by
  unfold pipeToDetect
  repeat' split
  all_goals simp

theorem pipeToDetect_getElem? (w : World) (p i : Nat) (c : AgentWrite) :
    ((pipeToDetect w p c).pipelines[i]?).map Pipeline.detectWrites =
        (w.pipelines[i]?).map Pipeline.detectWrites ∨
    ∃ pl, w.pipelines[i]? = some pl ∧
      ((pipeToDetect w p c).pipelines[i]?).map Pipeline.detectWrites =
        some (pl.detectWrites ++ [c]) := by
  unfold pipeToDetect
  split
  · rename_i pl hpl
    split
    · exact Or.inl rfl
    · simp only [record_pipelines, modifyPipeline_getElem?]
      by_cases hpi : p = i
      · subst hpi
        right
        exact ⟨pl, hpl, by simp [hpl]⟩
      · left; simp [hpi]
  · exact Or.inl rfl

theorem deliver_frame (w : World) (p i : Nat) :
    (deliver w p).env = w.env ∧
    (deliver w p).session.isFirst = w.session.isFirst ∧
    (((deliver w p).pipelines[i]?).map Pipeline.detectWrites =
        (w.pipelines[i]?).map Pipeline.detectWrites ∨
      ∃ pl b, w.pipelines[i]? = some pl ∧
        ((deliver w p).pipelines[i]?).map Pipeline.detectWrites =
          some (pl.detectWrites ++ [.inputAudio b])) := by
  have hmod : ∀ (rest : List RawFrame) (i : Nat),
      ((w.modifyPipeline p fun pl => { pl with requestBuffer := rest }).pipelines[i]?).map
          Pipeline.detectWrites = (w.pipelines[i]?).map Pipeline.detectWrites := by
    intro rest i
    rw [modifyPipeline_getElem?]
    split
    · cases w.pipelines[i]? <;> simp
    · rfl
  have hmod2 : ∀ (rest : List RawFrame) (i : Nat) (pl : Pipeline),
      (w.modifyPipeline p fun pl => { pl with requestBuffer := rest }).pipelines[i]? = some pl →
      ∃ pl0 : Pipeline, w.pipelines[i]? = some pl0 ∧ pl0.detectWrites = pl.detectWrites := by
    intro rest i pl h
    rw [modifyPipeline_getElem?] at h
    split at h
    · cases hw : w.pipelines[i]? with
      | none => simp [hw] at h
      | some pl0 =>
        simp [hw] at h
        exact ⟨pl0, rfl, by rw [← h]⟩
    · exact ⟨pl, h, rfl⟩
  unfold deliver
  split
  · exact ⟨rfl, rfl, Or.inl rfl⟩
  · split
    · exact ⟨rfl, rfl, Or.inl rfl⟩
    · split
      · exact ⟨rfl, rfl, Or.inl rfl⟩
      · rename_i chunk rest hbuf
        dsimp only []
        split
        · exact ⟨by simp, by simp, Or.inl (hmod rest i)⟩
        · rename_i out hout
          have hout2 : ∀ c, out = some c → ∃ b, c = .inputAudio b := by
            intro c hc
            subst hc
            exact decoder_output _ _ _ hout
          have henv : (match out with
              | some c => pipeToDetect (w.modifyPipeline p fun pl =>
                  { pl with requestBuffer := rest }) p c
              | none => w.modifyPipeline p fun pl =>
                  { pl with requestBuffer := rest }).env = w.env := by
            cases out <;> simp [pipeToDetect_env]
          have hsess : (match out with
              | some c => pipeToDetect (w.modifyPipeline p fun pl =>
                  { pl with requestBuffer := rest }) p c
              | none => w.modifyPipeline p fun pl =>
                  { pl with requestBuffer := rest }).session = w.session := by
            cases out <;> simp [pipeToDetect_session]
          have hpl : ∀ i : Nat, (((match out with
              | some c => pipeToDetect (w.modifyPipeline p fun pl =>
                  { pl with requestBuffer := rest }) p c
              | none => w.modifyPipeline p fun pl =>
                  { pl with requestBuffer := rest }).pipelines[i]?).map Pipeline.detectWrites =
                (w.pipelines[i]?).map Pipeline.detectWrites) ∨
              ∃ (pl : Pipeline) (b : Buffer), w.pipelines[i]? = some pl ∧
                ((match out with
                  | some c => pipeToDetect (w.modifyPipeline p fun pl =>
                      { pl with requestBuffer := rest }) p c
                  | none => w.modifyPipeline p fun pl =>
                      { pl with requestBuffer := rest }).pipelines[i]?).map Pipeline.detectWrites =
                  some (pl.detectWrites ++ [.inputAudio b]) := by
            intro i
            cases out with
            | none => exact Or.inl (hmod rest i)
            | some c =>
              rcases hout2 c rfl with ⟨b, hb⟩
              subst hb
              rcases pipeToDetect_getElem? (w.modifyPipeline p fun pl =>
                  { pl with requestBuffer := rest }) p i (.inputAudio b) with h | ⟨pl, h1, h2⟩
              · exact Or.inl (h.trans (hmod rest i))
              · rcases hmod2 rest i pl h1 with ⟨pl0, h3, h4⟩
                exact Or.inr ⟨pl0, b, h3, by rw [h4]; exact h2⟩
          split
          · exact ⟨henv, by simp [hsess], hpl i⟩
          · refine ⟨by rw [foldl_emit_env]; exact henv, by rw [foldl_emit_isFirst, hsess], ?_⟩
            rw [foldl_emit_pipelines]
            exact hpl i


theorem startPipeline_detectWrites (w : World) :
    (startPipeline w).1.pipelines.map Pipeline.detectWrites =
      w.pipelines.map Pipeline.detectWrites ++
        (if w.session.isReady then []
         else [[.initialRequest (createDetectStream w.env w.session.isFirst)]]) := by
  rw [startPipeline_fst]
  split <;> simp

theorem startPipeline_isFirst (w : World) :
    (startPipeline w).1.session.isFirst =
      (if w.session.isReady then w.session.isFirst else false) := by
  rw [startPipeline_fst]
  split <;> simp

/-- The shape of what was written to the agent streams, kept by every step. -/
theorem step_agent_writes (env : Env) (w : World) (s : Step)
    (henv : w.env = env)
    (hfirst : w.session.isFirst = true ↔ w.pipelines = [])
    (hw : ∀ (i : Nat) (ws : List AgentWrite),
      (w.pipelines[i]?).map Pipeline.detectWrites = some ws →
      ∃ chunks : List Buffer,
        ws = .initialRequest (createDetectStream env (decide (i = 0))) ::
          chunks.map AgentWrite.inputAudio) :
    (step w s).env = env ∧
    ((step w s).session.isFirst = true ↔ (step w s).pipelines = []) ∧
    (∀ (i : Nat) (ws : List AgentWrite),
      ((step w s).pipelines[i]?).map Pipeline.detectWrites = some ws →
      ∃ chunks : List Buffer,
        ws = .initialRequest (createDetectStream env (decide (i = 0))) ::
          chunks.map AgentWrite.inputAudio) := by
  have same : ∀ v : World, v.env = w.env → v.session.isFirst = w.session.isFirst →
      v.pipelines.map Pipeline.detectWrites = w.pipelines.map Pipeline.detectWrites →
      v.env = env ∧ (v.session.isFirst = true ↔ v.pipelines = []) ∧
      (∀ (i : Nat) (ws : List AgentWrite),
        (v.pipelines[i]?).map Pipeline.detectWrites = some ws →
        ∃ chunks : List Buffer,
          ws = .initialRequest (createDetectStream env (decide (i = 0))) ::
            chunks.map AgentWrite.inputAudio) := by
    intro v h1 h2 h3
    have hnil : v.pipelines = [] ↔ w.pipelines = [] := by
      have := congrArg List.length h3
      simp only [List.length_map] at this
      rw [← List.length_eq_zero, ← List.length_eq_zero, this]
    refine ⟨h1.trans henv, by rw [h2, hnil]; exact hfirst, ?_⟩
    intro i ws hi
    apply hw i ws
    rw [← List.getElem?_map, ← h3, List.getElem?_map]
    exact hi
  unfold step
  split
  · exact ⟨henv, hfirst, hw⟩
  · cases s with
    | send frame =>
      have hs := send_frame w frame
      have hlen : (send w frame).pipelines = [] ↔ (startPipeline w).1.pipelines = [] := by
        rw [← List.length_eq_zero, ← List.length_eq_zero, hs.2.2.2.2.1]
      refine ⟨hs.1.trans henv, ?_, ?_⟩
      · simp only []
        rw [hs.2.1, hlen, startPipeline_isFirst, startPipeline_fst]
        by_cases hr : w.session.isReady = true
        · simp [hr, hfirst]
        · simp [hr]
      · intro i ws hi
        simp only [] at hi
        rw [← List.getElem?_map, hs.2.2.2.1, startPipeline_detectWrites] at hi
        by_cases hr : w.session.isReady = true
        · simp only [hr, if_true, List.append_nil] at hi
          apply hw i ws
          rw [← List.getElem?_map]
          exact hi
        · simp only [hr] at hi
          rw [List.getElem?_append] at hi
          split at hi
          · apply hw i ws
            rw [← List.getElem?_map]
            exact hi
          · rename_i hge
            simp only [List.length_map, not_lt] at hge
            have hidx : i - (List.map Pipeline.detectWrites w.pipelines).length = 0 := by
              cases hsub : i - (List.map Pipeline.detectWrites w.pipelines).length with
              | zero => rfl
              | succ k => rw [hsub] at hi; simp at hi
            rw [hidx] at hi
            simp at hi
            simp only [List.length_map] at hidx
            have hieq : i = w.pipelines.length := by omega
            refine ⟨[], ?_⟩
            rw [← hi, henv]
            simp only [List.map_nil]
            congr 2
            cases hf : w.session.isFirst with
            | true =>
              have := hfirst.mp hf
              simp [hieq, this]
            | false =>
              have hne : w.pipelines ≠ [] := fun h => by
                have := hfirst.mpr h
                rw [hf] at this
                cases this
              have : w.pipelines.length ≠ 0 := fun h => hne (List.length_eq_zero.mp h)
              simp [hieq, this]
    | deliver p =>
      have hd := fun i => deliver_frame w p i
      have hlen : (deliver w p).pipelines.length = w.pipelines.length := by
        by_contra hne
        rcases Nat.lt_or_gt_of_ne hne with hlt | hgt
        · rcases (hd (deliver w p).pipelines.length).2.2 with h | ⟨pl, b, _, h⟩
          · simp [List.getElem?_eq_none, hlt] at h
          · simp [List.getElem?_eq_none] at h
        · rcases (hd w.pipelines.length).2.2 with h | ⟨pl, b, h, _⟩
          · simp [List.getElem?_eq_none, hgt] at h
          · simp [List.getElem?_eq_none] at h
      have hnil : (deliver w p).pipelines = [] ↔ w.pipelines = [] := by
        rw [← List.length_eq_zero, ← List.length_eq_zero, hlen]
      refine ⟨(hd 0).1.trans henv, by simp only []; rw [(hd 0).2.1, hnil]; exact hfirst, ?_⟩
      intro i ws hi
      simp only [] at hi
      rcases (hd i).2.2 with h | ⟨pl, b, h1, h2⟩
      · exact hw i ws (h ▸ hi)
      · rw [h2] at hi
        cases hi
        rcases hw i pl.detectWrites (by simp [h1]) with ⟨chunks, hc⟩
        exact ⟨chunks ++ [b], by simp [hc]⟩
    | stop => exact same _ rfl rfl rfl
    | finish =>
      have h := finish_frame w
      exact same _ h.1 h.2.1 h.2.2.2.1
    | response p data =>
      simp only []
      split
      · have h := onResponseData_frame w data
        exact same _ h.1 h.2.1 h.2.2.1
      · exact ⟨henv, hfirst, hw⟩
    | audioData p payload =>
      simp only []
      split
      · exact same _ (emit_env _ _) (emit_isFirst _ _) (by rw [emit_pipelines])
      · exact ⟨henv, hfirst, hw⟩
    | pipelineDone p err =>
      simp only []
      split
      · have h := onPipelineDone_frame (w.modifyPipeline p
          (fun pl => { pl with terminated := true, detectDestroyed := true })) err
        refine same _ (by rw [h.1]; simp) (by rw [h.2]; simp) ?_
        rw [onPipelineDone_pipelines]
        exact modifyPipeline_map_detectWrites _ _ _ (fun _ => rfl)
      · exact ⟨henv, hfirst, hw⟩
    | requestClose p =>
      simp only []
      split
      · refine same _ (by simp [onRequestClose]) (by simp [onRequestClose]) ?_
        simp only [onRequestClose]
        exact modifyPipeline_map_detectWrites _ _ _ (fun _ => rfl)
      · exact ⟨henv, hfirst, hw⟩

theorem run_agent_writes (env : Env) (steps : List Step) (w : World)
    (henv : w.env = env)
    (hfirst : w.session.isFirst = true ↔ w.pipelines = [])
    (hw : ∀ (i : Nat) (ws : List AgentWrite),
      (w.pipelines[i]?).map Pipeline.detectWrites = some ws →
      ∃ chunks : List Buffer,
        ws = .initialRequest (createDetectStream env (decide (i = 0))) ::
          chunks.map AgentWrite.inputAudio) :
    ∀ (i : Nat) (ws : List AgentWrite),
      ((run w steps).pipelines[i]?).map Pipeline.detectWrites = some ws →
      ∃ chunks : List Buffer,
        ws = .initialRequest (createDetectStream env (decide (i = 0))) ::
          chunks.map AgentWrite.inputAudio := by
  induction steps generalizing w with
  | nil => exact hw
  | cons s rest ih =>
    have h := step_agent_writes env w s henv hfirst hw
    exact ih (step w s) h.1 h.2.1 h.2.2

/-- Claim C8: in every reachable state, the first write to the agent stream of the pipeline
created `i`-th is the initial request, carrying the trigger event when `i = 0` and the
mu-law 8000 Hz single-utterance audio configuration without interim results otherwise; all
later writes to that stream are `inputAudio` chunks. -/
theorem initial_request_first_on_every_pipeline (env : Env) (steps : List Step) (i : Nat)
    (pl : Pipeline) (h : (run (World.init env) steps).pipelines[i]? = some pl) :
    ∃ chunks : List Buffer,
      pl.detectWrites =
        .initialRequest
          { queryInput :=
              if i = 0 then QueryInput.eventInput env.startingEventName "en-US"
              else QueryInput.audioInput
                { audioEncoding := "AUDIO_ENCODING_MULAW", sampleRateHertz := 8000
                  languageCode := "en-US", singleUtterance := true } false
            session := env.sessionPath
            queryParamsSession := env.queryParamsSession
            outputAudioEncoding := "OUTPUT_AUDIO_ENCODING_LINEAR_16" } ::
          chunks.map AgentWrite.inputAudio := by
  have := run_agent_writes env steps (World.init env) rfl (by simp [World.init])
    (by intro i ws hi; simp [World.init] at hi) i pl.detectWrites (by simp [h])
  rcases this with ⟨chunks, hc⟩
  refine ⟨chunks, ?_⟩
  rw [hc]
  by_cases hi : i = 0 <;> simp [createDetectStream, intentQueryAudioInput, hi]

/-- Witness for claim C8: the second pipeline of a session opens with the audio
configuration. -/
theorem initial_request_first_witness :
    (run (World.init sampleEnv)
        [.send mediaFrame, .deliver 0, .pipelineDone 0 none, .send mediaFrame, .deliver 1]).pipelines[1]? =
      some { requestBuffer := [], requestEnded := false, requestClosed := false
             detectWrites :=
               [.initialRequest (createDetectStream sampleEnv false),
                .inputAudio { text := "AAAA", encoding := "base64" }]
             detectEnded := false, detectDestroyed := false, terminated := false } ∧
    ∃ chunks : List Buffer,
      [AgentWrite.initialRequest (createDetectStream sampleEnv false),
        .inputAudio { text := "AAAA", encoding := "base64" }] =
        .initialRequest
          { queryInput :=
              if 1 = 0 then QueryInput.eventInput sampleEnv.startingEventName "en-US"
              else QueryInput.audioInput
                { audioEncoding := "AUDIO_ENCODING_MULAW", sampleRateHertz := 8000
                  languageCode := "en-US", singleUtterance := true } false
            session := sampleEnv.sessionPath
            queryParamsSession := sampleEnv.queryParamsSession
            outputAudioEncoding := "OUTPUT_AUDIO_ENCODING_LINEAR_16" } ::
          chunks.map AgentWrite.inputAudio :=
  ⟨by decide,
    initial_request_first_on_every_pipeline sampleEnv
      [.send mediaFrame, .deliver 0, .pipelineDone 0 none, .send mediaFrame, .deliver 1] 1
      { requestBuffer := [], requestEnded := false, requestClosed := false
        detectWrites :=
          [.initialRequest (createDetectStream sampleEnv false),
           .inputAudio { text := "AAAA", encoding := "base64" }]
        detectEnded := false, detectDestroyed := false, terminated := false }
      (by decide)⟩


/-! ### The `clear` control frame -/

theorem emit_outFrame_filterMap_quiet (w : World) (e : Event)
    (h : ∀ t, e ≠ .interrupted t) (ha : ∀ a, e ≠ .audio a) :
    mediaWrites (emit w e).log = mediaWrites w.log ∧
    (emit w e).session.isInterrupted = w.session.isInterrupted := by
  cases e with
  | callStarted a b => simp [emit, onCallStarted, mediaWrites, Effect.outFrame?]
  | audio a => exact absurd rfl (ha a)
  | interrupted t => exact absurd rfl (h t)
  | endOfInteraction q =>
    simp [emit, onEndOfInteraction, mediaWrites, Effect.outFrame?]
  | error err => simp [emit, mediaWrites, Effect.outFrame?]

theorem emit_audio_clear (w : World) (a : String) :
    clearCount (emit w (.audio a)).log = clearCount w.log ∧
    (emit w (.audio a)).session.isInterrupted = w.session.isInterrupted := by
  simp only [emit, onAudio]
  split <;>
    simp [clearCount, mediaWrites, Effect.outFrame?, OutFrame.isClear, List.countP_append,
      List.countP_cons]

theorem emit_interrupted_clear (w : World) (t : String) :
    mediaWrites (emit w (.interrupted t)).log =
      mediaWrites w.log ++ (if w.session.isInterrupted then [] else [.clear w.streamSid]) ∧
    (emit w (.interrupted t)).session.isInterrupted = true ∧
    (emit w (.interrupted t)).pipelines = w.pipelines := by
  simp only [emit, onInterrupted]
  cases h : w.session.isInterrupted <;>
    simp [h, mediaWrites, Effect.outFrame?]

theorem tap_events_kind (s : Session) (data : RawFrame) (events : List Event)
    (h : requestTap s data = .ok events) :
    ∀ e ∈ events, (∀ t, e ≠ .interrupted t) ∧ (∀ a, e ≠ .audio a) := by
  cases data with
  | malformed text => simp [requestTap, jsonParse] at h
  | jsonNull => simp [requestTap, jsonParse] at h
  | json msg =>
    unfold requestTap at h
    simp only [jsonParse] at h
    by_cases hs : msg.event = some "start"
    · have hm : msg.event ≠ some "mark" := by rw [hs]; decide
      simp only [hs, hm, if_true, if_false] at h
      cases hst : msg.start with
      | none => simp [hst] at h
      | some st =>
        simp [hst] at h
        subst h
        simp
    · simp only [hs, if_false] at h
      by_cases hm : msg.event = some "mark"
      · simp only [hm, if_true] at h
        cases hmk : msg.mark with
        | none => simp [hmk] at h
        | some mk =>
          simp only [hmk] at h
          by_cases hn : mk.name = some "endOfInteraction"
          · simp only [hn, if_true] at h
            cases hq : getFinalQueryResult s with
            | error e => simp [hq] at h
            | ok q0 =>
              simp [hq] at h
              subst h
              simp
          · simp [hn] at h
            subst h
            simp
      · simp [hm] at h
        subst h
        simp

theorem foldl_emit_quiet (events : List Event) (w : World)
    (h : ∀ e ∈ events, (∀ t, e ≠ .interrupted t) ∧ (∀ a, e ≠ .audio a)) :
    mediaWrites (events.foldl emit w).log = mediaWrites w.log ∧
    (events.foldl emit w).session.isInterrupted = w.session.isInterrupted := by
  induction events generalizing w with
  | nil => exact ⟨rfl, rfl⟩
  | cons e es ih =>
    have h1 := emit_outFrame_filterMap_quiet w e (h e (List.mem_cons_self _ _)).1
      (h e (List.mem_cons_self _ _)).2
    have h2 := ih (emit w e) (fun x hx => h x (List.mem_cons_of_mem _ hx))
    simp only [List.foldl_cons]
    exact ⟨h2.1.trans h1.1, h2.2.trans h1.2⟩

theorem pipeToDetect_quiet (w : World) (p : Nat) (c : AgentWrite) :
    mediaWrites (pipeToDetect w p c).log = mediaWrites w.log ∧
    (pipeToDetect w p c).pipelines.length = w.pipelines.length := by
  unfold pipeToDetect
  refine ⟨?_, ?_⟩
  all_goals repeat' split
  all_goals simp [mediaWrites, Effect.outFrame?]

theorem tapStage_quiet (v : World) (chunk : RawFrame) :
    mediaWrites (match requestTap v.session chunk with
      | .error e => { v with uncaught := some e }
      | .ok events => events.foldl emit v).log = mediaWrites v.log ∧
    (match requestTap v.session chunk with
      | .error e => { v with uncaught := some e }
      | .ok events => events.foldl emit v).session.isInterrupted = v.session.isInterrupted ∧
    (match requestTap v.session chunk with
      | .error e => { v with uncaught := some e }
      | .ok events => events.foldl emit v).pipelines.length = v.pipelines.length := by
  cases hev : requestTap v.session chunk with
  | error e => exact ⟨rfl, rfl, rfl⟩
  | ok events =>
    have hq := foldl_emit_quiet events v (tap_events_kind _ _ _ hev)
    exact ⟨hq.1, hq.2, by simp [foldl_emit_pipelines]⟩

theorem deliver_quiet (w : World) (p : Nat) :
    mediaWrites (deliver w p).log = mediaWrites w.log ∧
    (deliver w p).session.isInterrupted = w.session.isInterrupted ∧
    (deliver w p).pipelines.length = w.pipelines.length := by
  unfold deliver
  split
  · exact ⟨rfl, rfl, rfl⟩
  · split
    · exact ⟨rfl, rfl, rfl⟩
    · split
      · exact ⟨rfl, rfl, rfl⟩
      · rename_i chunk rest hbuf
        dsimp only []
        split
        · simp
        · rename_i out hout
          have h1 : mediaWrites (match out with
              | some c => pipeToDetect (w.modifyPipeline p fun pl =>
                  { pl with requestBuffer := rest }) p c
              | none => w.modifyPipeline p fun pl =>
                  { pl with requestBuffer := rest }).log = mediaWrites w.log := by
            cases out <;> simp [pipeToDetect_quiet]
          have h2 : (match out with
              | some c => pipeToDetect (w.modifyPipeline p fun pl =>
                  { pl with requestBuffer := rest }) p c
              | none => w.modifyPipeline p fun pl =>
                  { pl with requestBuffer := rest }).session = w.session := by
            cases out <;> simp [pipeToDetect_session]
          have h3 : (match out with
              | some c => pipeToDetect (w.modifyPipeline p fun pl =>
                  { pl with requestBuffer := rest }) p c
              | none => w.modifyPipeline p fun pl =>
                  { pl with requestBuffer := rest }).pipelines.length = w.pipelines.length := by
            cases out <;> simp [pipeToDetect_quiet]
          exact ⟨(tapStage_quiet _ chunk).1.trans h1,
            (tapStage_quiet _ chunk).2.1.trans (congrArg Session.isInterrupted h2),
            (tapStage_quiet _ chunk).2.2.trans h3⟩

theorem onResponseData_mediaWrites (w : World) (data : Response) :
    mediaWrites (onResponseData w data).log =
      mediaWrites w.log ++
        (match data.recognitionResult with
          | some r =>
            match r.transcript with
            | some t =>
              if t.length > 0 then (if w.session.isInterrupted then [] else [.clear w.streamSid])
              else []
            | none => []
          | none => []) ∧
    (onResponseData w data).session.isInterrupted =
      (match data.recognitionResult with
        | some r =>
          match r.transcript with
          | some t => if t.length > 0 then true else w.session.isInterrupted
          | none => w.session.isInterrupted
        | none => w.session.isInterrupted) := by
  have key : ∀ v : World,
      mediaWrites (match data.queryResult with
        | some q =>
          match q.intent with
          | some intent =>
            if intent.endInteraction then
              match (stop { v with session := { v.session with finalQueryResult := some q } }).session.detectStream with
              | some id =>
                if !(stop { v with session := { v.session with finalQueryResult := some q } }).detectDestroyed id &&
                    !(stop { v with session := { v.session with finalQueryResult := some q } }).detectEnded id then
                  { ((stop { v with session := { v.session with finalQueryResult := some q } }).modifyPipeline id
                        (fun pl => { pl with detectEnded := true })).record (.detectEnd id) with
                    session :=
                      { (((stop { v with session := { v.session with finalQueryResult := some q } }).modifyPipeline id
                        (fun pl => { pl with detectEnded := true })).record (.detectEnd id)).session with
                        detectStream := none } }
                else stop { v with session := { v.session with finalQueryResult := some q } }
              | none => stop { v with session := { v.session with finalQueryResult := some q } }
            else v
          | none => v
        | none => v).log = mediaWrites v.log ∧
      (match data.queryResult with
        | some q =>
          match q.intent with
          | some intent =>
            if intent.endInteraction then
              match (stop { v with session := { v.session with finalQueryResult := some q } }).session.detectStream with
              | some id =>
                if !(stop { v with session := { v.session with finalQueryResult := some q } }).detectDestroyed id &&
                    !(stop { v with session := { v.session with finalQueryResult := some q } }).detectEnded id then
                  { ((stop { v with session := { v.session with finalQueryResult := some q } }).modifyPipeline id
                        (fun pl => { pl with detectEnded := true })).record (.detectEnd id) with
                    session :=
                      { (((stop { v with session := { v.session with finalQueryResult := some q } }).modifyPipeline id
                        (fun pl => { pl with detectEnded := true })).record (.detectEnd id)).session with
                        detectStream := none } }
                else stop { v with session := { v.session with finalQueryResult := some q } }
              | none => stop { v with session := { v.session with finalQueryResult := some q } }
            else v
          | none => v
        | none => v).session.isInterrupted = v.session.isInterrupted := by
    intro v
    refine ⟨?_, ?_⟩
    all_goals repeat' split
    all_goals simp_all [stop, mediaWrites, Effect.outFrame?]
  unfold onResponseData
  simp only []
  refine ⟨?_, ?_⟩
  · rw [(key _).1]
    repeat' split
    all_goals simp_all [emit_interrupted_clear]
  · rw [(key _).2]
    repeat' split
    all_goals simp_all [emit_interrupted_clear]


theorem startPipeline_length (w : World) :
    (startPipeline w).1.pipelines.length =
      (if w.session.isReady then w.pipelines.length else w.pipelines.length + 1) := by
  rw [startPipeline_fst]
  split <;> simp

theorem startPipeline_isInterrupted (w : World) :
    (startPipeline w).1.session.isInterrupted =
      (if w.session.isReady then w.session.isInterrupted else false) := by
  rw [startPipeline_fst]
  split <;> simp

theorem onPipelineDone_quiet (w : World) (err : Option JsError) :
    mediaWrites (onPipelineDone w err).log = mediaWrites w.log ∧
    (onPipelineDone w err).session.isInterrupted = w.session.isInterrupted := by
  unfold onPipelineDone
  simp only []
  refine ⟨?_, ?_⟩
  all_goals repeat' split
  all_goals simp_all [emit, mediaWrites, Effect.outFrame?]

theorem active_length_pos (w : World) (p : Nat) (h : w.active p = true) :
    0 < w.pipelines.length := by
  unfold World.active at h
  cases hp : w.pipelines[p]? with
  | none => rw [hp] at h; cases h
  | some pl =>
    rcases List.getElem?_eq_some.mp hp with ⟨hlt, _⟩
    omega

theorem onResponseData_clear_cases (w : World) (data : Response) :
    (clearCount (onResponseData w data).log = clearCount w.log ∧
      (onResponseData w data).session.isInterrupted = w.session.isInterrupted) ∨
    (w.session.isInterrupted = false ∧
      clearCount (onResponseData w data).log = clearCount w.log + 1 ∧
      (onResponseData w data).session.isInterrupted = true) := by
  have hm := onResponseData_mediaWrites w data
  unfold clearCount
  cases hr : data.recognitionResult with
  | none =>
    simp only [hr] at hm
    left
    rw [hm.1, hm.2]
    simp
  | some r =>
    cases ht : r.transcript with
    | none =>
      simp only [hr, ht] at hm
      left
      rw [hm.1, hm.2]
      simp
    | some t =>
      by_cases hlen : t.length > 0
      · cases hi : w.session.isInterrupted with
        | true =>
          simp only [hr, ht, hlen, hi, if_true] at hm
          left
          rw [hm.1, hm.2]
          simp
        | false =>
          simp only [hr, ht, hlen, hi, if_true] at hm
          right
          rw [hm.1, hm.2]
          simp [List.countP_append, List.countP_cons, OutFrame.isClear]
      · simp only [hr, ht, hlen, if_false] at hm
        left
        rw [hm.1, hm.2]
        simp

theorem step_clear_bound (w : World) (s : Step)
    (h : (w.pipelines.length = 0 ∧ clearCount w.log = 0) ∨
      clearCount w.log + (if w.session.isInterrupted then 0 else 1) ≤ w.pipelines.length) :
    ((step w s).pipelines.length = 0 ∧ clearCount (step w s).log = 0) ∨
      clearCount (step w s).log + (if (step w s).session.isInterrupted then 0 else 1) ≤
        (step w s).pipelines.length := by
  have same : ∀ v : World, mediaWrites v.log = mediaWrites w.log →
      v.session.isInterrupted = w.session.isInterrupted →
      v.pipelines.length = w.pipelines.length →
      ((v.pipelines.length = 0 ∧ clearCount v.log = 0) ∨
        clearCount v.log + (if v.session.isInterrupted then 0 else 1) ≤ v.pipelines.length) := by
    intro v h1 h2 h3
    unfold clearCount at h ⊢
    rw [h1, h2, h3]
    exact h
  unfold step
  split
  · exact h
  · cases s with
    | send frame =>
      have hs := send_frame w frame
      simp only []
      unfold clearCount at h ⊢
      rw [hs.2.2.2.2.2, hs.2.2.1, hs.2.2.2.2.1, startPipeline_length, startPipeline_isInterrupted]
      by_cases hr : w.session.isReady = true
      · simp only [hr, if_true]
        exact h
      · simp only [hr]
        right
        rcases h with ⟨h1, h2⟩ | h
        · simp [h1, h2]
        · simp only [Bool.false_eq_true, if_false]
          split at h <;> omega
    | deliver p =>
      have hd := deliver_quiet w p
      exact same _ hd.1 hd.2.1 hd.2.2
    | stop => exact same _ rfl rfl rfl
    | finish =>
      have hf := finish_frame w
      exact same _ hf.2.2.2.2.2 hf.2.2.1 hf.2.2.2.2.1
    | response p data =>
      simp only []
      split
      · rename_i hp
        have hpos := active_length_pos w p hp
        have hl := (onResponseData_frame w data).2.2.2
        right
        rw [hl]
        rcases h with ⟨h1, _⟩ | h
        · omega
        · rcases onResponseData_clear_cases w data with ⟨hc, hi⟩ | ⟨hw, hc, hi⟩
          · rw [hc, hi]
            exact h
          · rw [hc, hi]
            rw [hw] at h
            simpa using h
      · exact h
    | audioData p payload =>
      simp only []
      split
      · have ha := emit_audio_clear w payload
        unfold clearCount at h ha ⊢
        rw [ha.1, ha.2, emit_pipelines]
        exact h
      · exact h
    | pipelineDone p err =>
      simp only []
      split
      · have hq := onPipelineDone_quiet (w.modifyPipeline p
          (fun pl => { pl with terminated := true, detectDestroyed := true })) err
        refine same _ (by rw [hq.1]; simp) (by rw [hq.2]; simp) ?_
        rw [onPipelineDone_pipelines]
        simp
      · exact h
    | requestClose p =>
      simp only []
      split
      · exact same _ (by simp [onRequestClose]) (by simp [onRequestClose])
          (by simp [onRequestClose])
      · exact h

theorem run_clear_bound (steps : List Step) (w : World)
    (h : (w.pipelines.length = 0 ∧ clearCount w.log = 0) ∨
      clearCount w.log + (if w.session.isInterrupted then 0 else 1) ≤ w.pipelines.length) :
    clearCount (run w steps).log ≤ (run w steps).pipelines.length := by
  induction steps generalizing w with
  | nil =>
    rcases h with ⟨_, h2⟩ | h
    · simp [run, h2]
    · simp only [run, List.foldl_nil]
      omega
  | cons s rest ih => exact ih (step w s) (step_clear_bound w s h)

/-- Claim C10, amended: the number of `clear` frames written never exceeds the number of
pipelines created; every interim result with a non-empty transcript emits exactly one
`interrupted` event carrying it and writes `clear` only if `isInterrupted` was false;
`startPipeline` resets `isInterrupted` whenever it creates a pipeline. -/
theorem clear_at_most_once_per_pipeline :
    (∀ (env : Env) (steps : List Step),
      clearCount (run (World.init env) steps).log ≤
        (run (World.init env) steps).pipelines.length) ∧
    (∀ (w : World) (data : Response) (t : String),
      data.recognitionResult = some { transcript := some t } → 0 < t.length →
      emittedEvents (onResponseData w data).log = emittedEvents w.log ++ [.interrupted t] ∧
      mediaWrites (onResponseData w data).log =
        mediaWrites w.log ++ (if w.session.isInterrupted then [] else [.clear w.streamSid]) ∧
      (onResponseData w data).session.isInterrupted = true) ∧
    (∀ w : World, (startPipeline w).1.session.isInterrupted =
      (if w.session.isReady then w.session.isInterrupted else false)) := by
  refine ⟨fun env steps => run_clear_bound steps (World.init env) (Or.inl ⟨rfl, rfl⟩), ?_,
    startPipeline_isInterrupted⟩
  intro w data t hr ht
  have h1 := onResponseData_emittedEvents w data
  have h2 := onResponseData_mediaWrites w data
  rw [hr] at h1 h2
  simp only [gt_iff_lt, ht, if_true] at h1 h2
  exact ⟨h1, h2.1, h2.2⟩

/-- Witness for claim C10: an interim transcript emits one `interrupted` event. -/
theorem clear_at_most_once_witness :
    helloResponse.recognitionResult = some { transcript := some "hello" } ∧
    0 < "hello".length ∧
    emittedEvents (onResponseData endedWorld helloResponse).log =
      emittedEvents endedWorld.log ++ [.interrupted "hello"] :=
  ⟨rfl, by decide,
    (clear_at_most_once_per_pipeline.2.1 endedWorld helloResponse "hello" rfl (by decide)).1⟩

/-- Witness for claim C2: the stopped session drops the mark frame, and the steps that
follow forward no audio. -/
theorem send_drops_witness :
    endedWorld.session.isStopped = true ∧
    ((send endedWorld markFrame).uncaught = endedWorld.uncaught ∧
      requestWrites (send endedWorld markFrame).log = requestWrites endedWorld.log ∧
      pendingFrames (send endedWorld markFrame).pipelines = pendingFrames endedWorld.pipelines ∧
      emittedEvents (send endedWorld markFrame).log = emittedEvents endedWorld.log ∧
      audioWrites (send endedWorld markFrame).log = audioWrites endedWorld.log) ∧
    audioWrites (run endedWorld [.send mediaFrame, .deliver 0]).log = audioWrites endedWorld.log :=
  ⟨by decide,
    send_drops_when_stopped_or_unwritable.1 endedWorld markFrame (Or.inl (by decide)),
    send_drops_when_stopped_or_unwritable.2 endedWorld [.send mediaFrame, .deliver 0]
      (by decide)⟩

/-- Witness for claim C5: the mark frame delivered on a fresh session emits the event with
an undefined payload. -/
theorem endOfInteraction_delivered_mark_witness :
    getFinalQueryResult (run (World.init sampleEnv) [.send markFrame]).session = .ok none ∧
    emittedEvents (step (run (World.init sampleEnv) [.send markFrame]) (.deliver 0)).log =
      emittedEvents (run (World.init sampleEnv) [.send markFrame]).log ++
        [.endOfInteraction none] :=
  ⟨rfl,
    endOfInteraction_once_per_delivered_mark.1 (run (World.init sampleEnv) [.send markFrame]) 0
      { requestBuffer := [markFrame], requestEnded := false, requestClosed := false
        detectWrites := [.initialRequest (createDetectStream sampleEnv true)]
        detectEnded := false, detectDestroyed := false, terminated := false }
      markMsg [] none (by decide) (by decide) rfl rfl rfl rfl rfl rfl⟩

/-- Witness for claim C6: the `connected` frame is not a media frame and yields nothing. -/
theorem decoder_witness :
    connectedMsg.event ≠ some "media" ∧
    createAudioRequestStream false (.json connectedMsg) = .ok none :=
  ⟨by decide, decoder_forwards_only_media.2.1 connectedMsg (by decide)⟩

/-- Witness for claim C7: the `connected` frame is dropped by the decoder and by the tap. -/
theorem unrecognized_tag_witness :
    connectedMsg.event ≠ some "start" ∧ connectedMsg.event ≠ some "media" ∧
    connectedMsg.event ≠ some "mark" ∧ connectedMsg.event ≠ some "stop" ∧
    createAudioRequestStream false (.json connectedMsg) = .ok none ∧
    requestTap (World.init sampleEnv).session (.json connectedMsg) = .ok [] :=
  ⟨by decide, by decide, by decide, by decide,
    (unrecognized_tag_dropped_silently (World.init sampleEnv).session false connectedMsg
      (by decide) (by decide) (by decide) (by decide)).1,
    (unrecognized_tag_dropped_silently (World.init sampleEnv).session false connectedMsg
      (by decide) (by decide) (by decide) (by decide)).2.1⟩

/-! ### The terminal mark -/

theorem step_marks_unstopped (w : World) (s : Step)
    (h : w.session.isStopped = false ∨ s.isAudioData = false) :
    (mediaWrites (step w s).log).countP OutFrame.isMark =
      (mediaWrites w.log).countP OutFrame.isMark := by
  unfold step
  split
  · rfl
  · cases s with
    | send frame => simp only []; rw [(send_frame w frame).2.2.2.2.2]
    | deliver p => simp only []; rw [(deliver_quiet w p).1]
    | stop => rfl
    | finish => simp only []; rw [(finish_frame w).2.2.2.2.2]
    | response p data =>
      simp only []
      split
      · rw [(onResponseData_mediaWrites w data).1]
        repeat' split
        all_goals simp [List.countP_append, List.countP_cons, OutFrame.isMark]
      · rfl
    | audioData p payload =>
      rcases h with h | h
      · simp only []
        split
        · simp [emit, onAudio, h, mediaWrites, Effect.outFrame?, List.countP_append,
            List.countP_cons, OutFrame.isMark]
        · rfl
      · cases h
    | pipelineDone p err =>
      simp only []
      split
      · rw [(onPipelineDone_quiet _ err).1]
        simp
      · rfl
    | requestClose p =>
      simp only []
      split
      · simp [onRequestClose]
      · rfl

theorem run_marks_unstopped (steps : List Step) (w : World)
    (h : (run w steps).session.isStopped = false) :
    (mediaWrites (run w steps).log).countP OutFrame.isMark =
      (mediaWrites w.log).countP OutFrame.isMark := by
  induction steps generalizing w with
  | nil => rfl
  | cons s rest ih =>
    have hw : w.session.isStopped = false := by
      cases hs : w.session.isStopped with
      | false => rfl
      | true =>
        have := (run_stopped (s :: rest) w hs).1
        rw [h] at this
        cases this
    have h1 : (run (step w s) rest).session.isStopped = false := h
    have := ih (step w s) h1
    simp only [run, List.foldl_cons] at this ⊢
    rw [this, step_marks_unstopped w s (Or.inl hw)]

theorem run_marks_without_audio (steps : List Step) (w : World)
    (h : ∀ s ∈ steps, s.isAudioData = false) :
    (mediaWrites (run w steps).log).countP OutFrame.isMark =
      (mediaWrites w.log).countP OutFrame.isMark := by
  induction steps generalizing w with
  | nil => rfl
  | cons s rest ih =>
    have := ih (step w s) (fun t ht => h t (List.mem_cons_of_mem _ ht))
    simp only [run, List.foldl_cons] at this ⊢
    rw [this, step_marks_unstopped w s (Or.inr (h s (List.mem_cons_self _ _)))]

/-- Claim C9, amended: every `audio` event handled by the outbound encoder writes exactly one
`media` frame, whether or not the session is stopped, and leaves the session flags as they
are; while the session is not stopped it writes nothing else, and no `mark` frame has been
written in any reachable state that is not stopped; when a single audio event is handled
after the session has stopped (no mark written before it, no audio event after it), its
`media` frame is followed by the `mark` frame named `endOfInteraction`, which is then the
only mark written. -/
theorem terminal_mark_follows_audio_after_stop :
    (∀ (w : World) (audio : String),
      (mediaWrites (onAudio w audio).log).filter OutFrame.isMedia =
        (mediaWrites w.log).filter OutFrame.isMedia ++ [.media w.streamSid audio] ∧
      (onAudio w audio).session = w.session ∧
      mediaWrites (emit w (.audio audio)).log = mediaWrites (onAudio w audio).log) ∧
    (∀ (w : World) (audio : String), w.session.isStopped = false →
      mediaWrites (onAudio w audio).log = mediaWrites w.log ++ [.media w.streamSid audio]) ∧
    (∀ (env : Env) (steps : List Step),
      (run (World.init env) steps).session.isStopped = false →
      (mediaWrites (run (World.init env) steps).log).countP OutFrame.isMark = 0) ∧
    (∀ (w : World) (p : Nat) (audio : String) (rest : List Step),
      w.uncaught = none → w.active p = true → w.session.isStopped = true →
      (mediaWrites w.log).countP OutFrame.isMark = 0 →
      (∀ s ∈ rest, s.isAudioData = false) →
      mediaWrites (step w (.audioData p audio)).log =
        mediaWrites w.log ++
          [.media w.streamSid audio, .mark w.streamSid "endOfInteraction"] ∧
      (mediaWrites (run w (.audioData p audio :: rest)).log).countP OutFrame.isMark = 1) := by
  refine ⟨?_, ?_, ?_, ?_⟩
  · intro w audio
    refine ⟨?_, ?_, ?_⟩
    · unfold onAudio
      by_cases h : w.session.isStopped = true <;>
        simp [h, mediaWrites, Effect.outFrame?, OutFrame.isMedia, List.filter_cons]
    · unfold onAudio
      simp only []
      split <;> simp
    · simp [emit, onAudio, mediaWrites, Effect.outFrame?]
      split <;> simp [Effect.outFrame?]
  · intro w audio h
    simp [onAudio, h, mediaWrites, Effect.outFrame?]
  · intro env steps h
    rw [run_marks_unstopped steps (World.init env) h]
    rfl
  · intro w p audio rest hu hp hs hm hrest
    have h1 : mediaWrites (step w (.audioData p audio)).log =
        mediaWrites w.log ++
          [.media w.streamSid audio, .mark w.streamSid "endOfInteraction"] := by
      simp [step, hu, hp, emit, onAudio, hs, mediaWrites, Effect.outFrame?]
    refine ⟨h1, ?_⟩
    have h2 := run_marks_without_audio rest (step w (.audioData p audio)) hrest
    simp only [run, List.foldl_cons] at h2 ⊢
    rw [h2, h1]
    simp [List.countP_append, List.countP_cons, OutFrame.isMark, hm]

/-- Witness for claim C9: the only audio chunk after the end of the interaction is followed
by the terminal mark, also when the pipeline completes afterwards. -/
theorem terminal_mark_witness :
    endedWorld.uncaught = none ∧ endedWorld.active 0 = true ∧
    endedWorld.session.isStopped = true ∧
    (mediaWrites endedWorld.log).countP OutFrame.isMark = 0 ∧
    (mediaWrites (step endedWorld (.audioData 0 "x")).log =
      mediaWrites endedWorld.log ++
        [.media endedWorld.streamSid "x", .mark endedWorld.streamSid "endOfInteraction"] ∧
    (mediaWrites (run endedWorld [.audioData 0 "x", .pipelineDone 0 none]).log).countP
      OutFrame.isMark = 1) :=
  ⟨by decide, by decide, by decide, by decide,
    terminal_mark_follows_audio_after_stop.2.2.2 endedWorld 0 "x" [.pipelineDone 0 none]
      (by decide) (by decide) (by decide) (by decide) (by decide)⟩

/-! ### One pipeline at a time -/

theorem modifyPipeline_map (β : Type) (g : Pipeline → β) (w : World) (p : Nat)
    (f : Pipeline → Pipeline) (hf : ∀ pl, g (f pl) = g pl) :
    (w.modifyPipeline p f).pipelines.map g = w.pipelines.map g := by
  apply List.ext_getElem?
  intro i
  simp only [List.getElem?_map, modifyPipeline_getElem?]
  split
  · cases w.pipelines[i]? <;> simp [hf]
  · rfl

theorem unterminated_pos (l : List Pipeline) (q : Nat) (pl : Pipeline) (h : l[q]? = some pl)
    (ht : pl.terminated = false) : 0 < (l.filter (fun x => !x.terminated)).length := by
  have hmem : pl ∈ l.filter (fun x => !x.terminated) := by
    rw [List.mem_filter]
    exact ⟨List.getElem?_mem h, by simp [ht]⟩
  exact List.length_pos_of_mem hmem

theorem unterminated_unique (l : List Pipeline) (p q : Nat) (a b : Pipeline)
    (hl : (l.filter (fun x => !x.terminated)).length ≤ 1)
    (hp : l[p]? = some a) (ha : a.terminated = false)
    (hq : l[q]? = some b) (hb : b.terminated = false) : p = q := by
  induction l generalizing p q with
  | nil => simp at hp
  | cons x xs ih =>
    cases p with
    | zero =>
      cases q with
      | zero => rfl
      | succ q =>
        simp at hp hq
        subst hp
        have := unterminated_pos xs q b hq hb
        have hlen : ((x :: xs).filter (fun x => !x.terminated)).length =
            (xs.filter (fun x => !x.terminated)).length + 1 := by
          simp [List.filter_cons, ha]
        omega
    | succ p =>
      cases q with
      | zero =>
        simp at hp hq
        subst hq
        have := unterminated_pos xs p a hp ha
        have hlen : ((x :: xs).filter (fun x => !x.terminated)).length =
            (xs.filter (fun x => !x.terminated)).length + 1 := by
          simp [List.filter_cons, hb]
        omega
      | succ q =>
        simp at hp hq
        have hxs : (xs.filter (fun x => !x.terminated)).length ≤ 1 := by
          simp only [List.filter_cons] at hl
          split at hl
          · simp only [List.length_cons] at hl; omega
          · exact hl
        rw [ih p q hxs hp hq]

theorem terminated_of_activeCount_zero (w : World) (h : w.activeCount = 0) (q : Nat)
    (pl : Pipeline) (hq : w.pipelines[q]? = some pl) : pl.terminated = true := by
  cases ht : pl.terminated with
  | true => rfl
  | false =>
    have := unterminated_pos w.pipelines q pl hq ht
    unfold World.activeCount at h
    omega

theorem activeCount_zero_of_terminated (w : World)
    (h : ∀ (q : Nat) (pl : Pipeline), w.pipelines[q]? = some pl → pl.terminated = true) :
    w.activeCount = 0 := by
  unfold World.activeCount
  rw [List.length_eq_zero, List.filter_eq_nil_iff]
  intro pl hmem
  rcases List.getElem?_of_mem hmem with ⟨q, hq⟩
  simp [h q pl hq]

theorem singlePipeline_of_activeCount_zero (w : World) (h : w.activeCount = 0) :
    w.SinglePipeline := by
  refine ⟨by omega, ?_, ?_⟩
  · intro _ q pl hq ht
    rw [terminated_of_activeCount_zero w h q pl hq] at ht
    cases ht
  · intro q pl hq ht
    rw [terminated_of_activeCount_zero w h q pl hq] at ht
    cases ht

theorem same_flags_getElem? (w v : World)
    (hF : v.pipelines.map (fun pl : Pipeline => (pl.terminated, pl.requestEnded, pl.requestClosed)) =
      w.pipelines.map (fun pl : Pipeline => (pl.terminated, pl.requestEnded, pl.requestClosed)))
    (q : Nat) (pl2 : Pipeline) (h : v.pipelines[q]? = some pl2) :
    ∃ pl : Pipeline, w.pipelines[q]? = some pl ∧ pl.terminated = pl2.terminated ∧
      pl.requestEnded = pl2.requestEnded ∧ pl.requestClosed = pl2.requestClosed := by
  have hq := congrArg (fun l => l[q]?) hF
  simp only [List.getElem?_map, h, Option.map_some'] at hq
  cases hw : w.pipelines[q]? with
  | none => rw [hw] at hq; simp at hq
  | some pl =>
    rw [hw] at hq
    simp only [Option.map_some', Option.some.injEq, Prod.mk.injEq] at hq
    exact ⟨pl, rfl, hq.1.symm, hq.2.1.symm, hq.2.2.symm⟩

theorem singlePipeline_of_same (w v : World)
    (hF : v.pipelines.map (fun pl : Pipeline => (pl.terminated, pl.requestEnded, pl.requestClosed)) =
      w.pipelines.map (fun pl : Pipeline => (pl.terminated, pl.requestEnded, pl.requestClosed)))
    (hr : v.session.isReady = w.session.isReady)
    (hs : v.session.requestStream = w.session.requestStream)
    (h : w.SinglePipeline) : v.SinglePipeline := by
  have hT : v.pipelines.map Pipeline.terminated = w.pipelines.map Pipeline.terminated := by
    have := congrArg (List.map (fun t : Bool × Bool × Bool => t.1)) hF
    simpa [List.map_map, Function.comp_def] using this
  refine ⟨by rw [activeCount_eq_of_map w v hT]; exact h.1, ?_, ?_⟩
  · intro hv q pl2 hq ht
    rcases same_flags_getElem? w v hF q pl2 hq with ⟨pl, h1, h2, h3, h4⟩
    rw [← h3, ← h4]
    exact h.2.1 (hr ▸ hv) q pl h1 (h2.trans ht)
  · intro q pl2 hq ht he hc
    rcases same_flags_getElem? w v hF q pl2 hq with ⟨pl, h1, h2, h3, h4⟩
    rw [hs]
    exact h.2.2 q pl h1 (h2.trans ht) (h3.trans he) (h4.trans hc)

theorem foldl_emit_requestStream (events : List Event) (w : World) :
    (events.foldl emit w).session.requestStream = w.session.requestStream := by
  induction events generalizing w with
  | nil => simp
  | cons e es ih => simp [List.foldl_cons, ih]

theorem tapStage_same (v : World) (chunk : RawFrame) :
    (match requestTap v.session chunk with
      | .error e => { v with uncaught := some e }
      | .ok events => events.foldl emit v).pipelines = v.pipelines ∧
    (match requestTap v.session chunk with
      | .error e => { v with uncaught := some e }
      | .ok events => events.foldl emit v).session.isReady = v.session.isReady ∧
    (match requestTap v.session chunk with
      | .error e => { v with uncaught := some e }
      | .ok events => events.foldl emit v).session.requestStream = v.session.requestStream := by
  cases hev : requestTap v.session chunk with
  | error e => exact ⟨rfl, rfl, rfl⟩
  | ok events =>
    exact ⟨foldl_emit_pipelines _ _, foldl_emit_isReady _ _, foldl_emit_requestStream _ _⟩

theorem pipeToDetect_flags (w : World) (p : Nat) (c : AgentWrite) :
    (pipeToDetect w p c).pipelines.map
        (fun pl : Pipeline => (pl.terminated, pl.requestEnded, pl.requestClosed)) =
      w.pipelines.map (fun pl : Pipeline => (pl.terminated, pl.requestEnded, pl.requestClosed)) := by
  unfold pipeToDetect
  split
  · split
    · rfl
    · rw [record_pipelines]
      exact modifyPipeline_map _ _ _ _ _ (fun _ => rfl)
  · rfl

theorem deliver_flags (w : World) (p : Nat) :
    (deliver w p).pipelines.map (fun pl : Pipeline => (pl.terminated, pl.requestEnded, pl.requestClosed)) =
      w.pipelines.map (fun pl : Pipeline => (pl.terminated, pl.requestEnded, pl.requestClosed)) ∧
    (deliver w p).session.isReady = w.session.isReady ∧
    (deliver w p).session.requestStream = w.session.requestStream := by
  unfold deliver
  split
  · exact ⟨rfl, rfl, rfl⟩
  · split
    · exact ⟨rfl, rfl, rfl⟩
    · split
      · exact ⟨rfl, rfl, rfl⟩
      · rename_i chunk rest hbuf
        have h0 : (w.modifyPipeline p fun pl => { pl with requestBuffer := rest }).pipelines.map
            (fun pl : Pipeline => (pl.terminated, pl.requestEnded, pl.requestClosed)) =
            w.pipelines.map (fun pl : Pipeline => (pl.terminated, pl.requestEnded, pl.requestClosed)) :=
          modifyPipeline_map _ _ _ _ _ (fun _ => rfl)
        dsimp only []
        split
        · exact ⟨h0, by simp, by simp⟩
        · rename_i out hout
          have h1 : (match out with
              | some c => pipeToDetect (w.modifyPipeline p fun pl =>
                  { pl with requestBuffer := rest }) p c
              | none => w.modifyPipeline p fun pl =>
                  { pl with requestBuffer := rest }).pipelines.map
                (fun pl : Pipeline => (pl.terminated, pl.requestEnded, pl.requestClosed)) =
              w.pipelines.map (fun pl : Pipeline => (pl.terminated, pl.requestEnded, pl.requestClosed)) := by
            cases out
            · exact h0
            · exact (pipeToDetect_flags _ _ _).trans h0
          have h2 : (match out with
              | some c => pipeToDetect (w.modifyPipeline p fun pl =>
                  { pl with requestBuffer := rest }) p c
              | none => w.modifyPipeline p fun pl =>
                  { pl with requestBuffer := rest }).session = w.session := by
            cases out <;> simp [pipeToDetect_session]
          refine ⟨?_, (tapStage_same _ chunk).2.1.trans (congrArg Session.isReady h2),
            (tapStage_same _ chunk).2.2.trans (congrArg Session.requestStream h2)⟩
          rw [(tapStage_same _ chunk).1]
          exact h1

theorem onResponseData_flags (w : World) (data : Response) :
    (onResponseData w data).pipelines.map
        (fun pl : Pipeline => (pl.terminated, pl.requestEnded, pl.requestClosed)) =
      w.pipelines.map (fun pl : Pipeline => (pl.terminated, pl.requestEnded, pl.requestClosed)) ∧
    (onResponseData w data).session.requestStream = w.session.requestStream := by
  unfold onResponseData stop
  simp only []
  refine ⟨?_, ?_⟩
  all_goals repeat' split
  all_goals simp_all [modifyPipeline_map]

theorem finish_flags (w : World) :
    (finish w).pipelines.map (fun pl : Pipeline => (pl.terminated, pl.requestClosed)) =
      w.pipelines.map (fun pl : Pipeline => (pl.terminated, pl.requestClosed)) := by
  unfold finish
  simp only []
  repeat' split
  all_goals simp_all [modifyPipeline_map]

theorem finish_requestEnded (w : World) (q : Nat) (pl pl2 : Pipeline)
    (hq : w.pipelines[q]? = some pl) (hq2 : (finish w).pipelines[q]? = some pl2)
    (h : pl.requestEnded = true ∨ w.session.requestStream = some q) :
    pl2.requestEnded = true := by
  have stage2 : ∀ v : World, (∀ pl1, v.pipelines[q]? = some pl1 → pl1.requestEnded = true) →
      ∀ pl1, (match v.session.detectStream with
        | some id =>
          if !v.detectDestroyed id then
            (v.modifyPipeline id (fun pl => { pl with detectEnded := true })).record (.detectEnd id)
          else v
        | none => v).pipelines[q]? = some pl1 → pl1.requestEnded = true := by
    intro v hv pl1 h1
    split at h1
    · split at h1
      · rw [record_pipelines, modifyPipeline_getElem?] at h1
        split at h1
        · cases hvq : v.pipelines[q]? with
          | none => rw [hvq] at h1; simp at h1
          | some pl0 =>
            rw [hvq] at h1
            simp at h1
            rw [← h1]
            exact hv pl0 hvq
        · exact hv pl1 h1
      · exact hv pl1 h1
    · exact hv pl1 h1
  unfold finish at hq2
  simp only [] at hq2
  refine stage2 _ ?_ pl2 hq2
  intro pl1 h1
  split at h1
  · rename_i id hid
    split at h1
    · rw [record_pipelines, modifyPipeline_getElem?] at h1
      split at h1
      · rw [hq] at h1
        simp at h1
        rw [← h1]
      · rename_i hne
        rw [hq] at h1
        cases h1
        rcases h with h | h
        · exact h
        · rw [hid] at h
          cases h
          exact absurd rfl hne
    · rename_i hwe
      rw [hq] at h1
      cases h1
      rcases h with h | h
      · exact h
      · rw [hid] at h
        cases h
        simp [World.writableEnded, hq] at hwe
        exact hwe
  · rename_i hnone
    rw [hq] at h1
    cases h1
    rcases h with h | h
    · exact h
    · rw [hnone] at h
      cases h

theorem not_tearingDown (w : World) (h : w.tearingDown = false) (q : Nat) (pl : Pipeline)
    (hq : w.pipelines[q]? = some pl) (ht : pl.terminated = false) :
    pl.requestEnded = false ∧ pl.requestClosed = false := by
  unfold World.tearingDown at h
  rw [List.any_eq_false] at h
  have := h pl (List.getElem?_mem hq)
  simp [ht] at this
  exact this

theorem active_getElem? (w : World) (p : Nat) (h : w.active p = true) :
    ∃ pl : Pipeline, w.pipelines[p]? = some pl ∧ pl.terminated = false := by
  unfold World.active at h
  cases hp : w.pipelines[p]? with
  | none => rw [hp] at h; cases h
  | some pl =>
    rw [hp] at h
    exact ⟨pl, rfl, by simpa using h⟩

theorem startPipeline_singlePipeline (w : World) (hinv : w.SinglePipeline)
    (hord : w.tearingDown = false) : (startPipeline w).1.SinglePipeline := by
  by_cases hr : w.session.isReady = true
  · rw [startPipeline_fst]
    simp only [hr, if_true]
    exact hinv
  · have hr2 : w.session.isReady = false := by simpa using hr
    have hall : ∀ (q : Nat) (pl : Pipeline), w.pipelines[q]? = some pl →
        pl.terminated = true := by
      intro q pl hq
      cases ht : pl.terminated with
      | true => rfl
      | false =>
        have h1 := not_tearingDown w hord q pl hq ht
        rcases hinv.2.1 hr2 q pl hq ht with h2 | h2
        · rw [h1.1] at h2; cases h2
        · rw [h1.2] at h2; cases h2
    have hzero := activeCount_zero_of_terminated w hall
    refine ⟨?_, ?_, ?_⟩
    · rw [startPipeline_activeCount]
      simp [hr2, hzero]
    · intro h
      rw [startPipeline_isReady] at h
      cases h
    · intro q pl hq ht _ _
      rw [startPipeline_fst] at hq ⊢
      simp only [hr2, Bool.false_eq_true, if_false] at hq ⊢
      rw [List.getElem?_append] at hq
      split at hq
      · rw [hall q pl hq] at ht
        cases ht
      · rename_i hge
        have hidx : q - w.pipelines.length = 0 := by
          cases hsub : q - w.pipelines.length with
          | zero => rfl
          | succ k => rw [hsub] at hq; simp at hq
        have : q = w.pipelines.length := by omega
        rw [this]

theorem finish_getElem? (w : World) (q : Nat) (pl2 : Pipeline)
    (h : (finish w).pipelines[q]? = some pl2) :
    ∃ pl : Pipeline, w.pipelines[q]? = some pl ∧ pl.terminated = pl2.terminated ∧
      pl.requestClosed = pl2.requestClosed := by
  have hq := congrArg (fun l => l[q]?) (finish_flags w)
  simp only [List.getElem?_map, h, Option.map_some'] at hq
  cases hw : w.pipelines[q]? with
  | none => rw [hw] at hq; simp at hq
  | some pl =>
    rw [hw] at hq
    simp only [Option.map_some', Option.some.injEq, Prod.mk.injEq] at hq
    exact ⟨pl, rfl, hq.1.symm, hq.2.symm⟩

theorem finish_activeCount (w : World) : (finish w).activeCount = w.activeCount := by
  apply activeCount_eq_of_map
  have := congrArg (List.map (fun t : Bool × Bool => t.1)) (finish_flags w)
  simpa [List.map_map, Function.comp_def] using this

theorem finish_singlePipeline (w : World) (hinv : w.SinglePipeline) :
    (finish w).SinglePipeline := by
  have key : ∀ (q : Nat) (pl2 : Pipeline), (finish w).pipelines[q]? = some pl2 →
      pl2.terminated = false → pl2.requestEnded = false → pl2.requestClosed = false →
      False := by
    intro q pl2 hq ht he hc
    rcases finish_getElem? w q pl2 hq with ⟨pl, h1, h2, h3⟩
    cases hpe : pl.requestEnded with
    | true =>
      have := finish_requestEnded w q pl pl2 h1 hq (Or.inl hpe)
      rw [he] at this
      cases this
    | false =>
      have href := hinv.2.2 q pl h1 (h2.trans ht) hpe (h3.trans hc)
      have := finish_requestEnded w q pl pl2 h1 hq (Or.inr href)
      rw [he] at this
      cases this
  refine ⟨by rw [finish_activeCount]; exact hinv.1, ?_, ?_⟩
  · intro _ q pl2 hq ht
    cases he : pl2.requestEnded with
    | true => exact Or.inl rfl
    | false =>
      cases hc : pl2.requestClosed with
      | true => exact Or.inr rfl
      | false => exact (key q pl2 hq ht he hc).elim
  · intro q pl2 hq ht he hc
    exact (key q pl2 hq ht he hc).elim

theorem step_singlePipeline (w : World) (s : Step) (hinv : w.SinglePipeline)
    (hord : s.inOrderAt w = true) : (step w s).SinglePipeline := by
  unfold step
  split
  · exact hinv
  · cases s with
    | send frame =>
      have hord2 : w.tearingDown = false := by simpa [Step.inOrderAt] using hord
      have hsp := startPipeline_singlePipeline w hinv hord2
      rcases send_cases w frame with hs | ⟨_, id, _, _, hs⟩
      · simp only []
        rw [hs]
        exact singlePipeline_of_same _ _ rfl rfl rfl hsp
      · simp only []
        rw [hs]
        unfold World.writeRequest
        exact singlePipeline_of_same _ _
          (by rw [record_pipelines]; exact modifyPipeline_map _ _ _ _ _ (fun _ => rfl))
          (by simp) (by simp) hsp
    | deliver p =>
      have h := deliver_flags w p
      exact singlePipeline_of_same _ _ h.1 h.2.1 h.2.2 hinv
    | stop => exact singlePipeline_of_same _ _ rfl rfl rfl hinv
    | finish => exact finish_singlePipeline w hinv
    | response p data =>
      simp only []
      split
      · have h := onResponseData_flags w data
        exact singlePipeline_of_same _ _ h.1 (onResponseData_isReady w data) h.2 hinv
      · exact hinv
    | audioData p payload =>
      simp only []
      split
      · exact singlePipeline_of_same _ _ (by rw [emit_pipelines]) (emit_isReady _ _)
          (emit_requestStream _ _) hinv
      · exact hinv
    | pipelineDone p err =>
      simp only []
      split
      · rename_i hp
        have hdec := activeCount_terminate w p
          (fun pl => { pl with terminated := true, detectDestroyed := true }) (fun _ => rfl) hp
        have h1 := hinv.1
        apply singlePipeline_of_activeCount_zero
        rw [activeCount_congr _ _ (onPipelineDone_pipelines _ _)]
        omega
      · exact hinv
    | requestClose p =>
      simp only []
      split
      · have hact : w.active p = true := by simpa [Step.inOrderAt] using hord
        rcases active_getElem? w p hact with ⟨plp, hplp, htp⟩
        refine ⟨?_, ?_, ?_⟩
        · have hh : (onRequestClose
              (w.modifyPipeline p fun pl => { pl with requestClosed := true })).activeCount =
              w.activeCount :=
            (activeCount_congr _ _ rfl).trans (activeCount_modifyPipeline _ _ _ (fun _ => rfl))
          exact hh.le.trans hinv.1
        · intro _ q pl2 hq ht
          simp only [onRequestClose] at hq
          rw [modifyPipeline_getElem?] at hq
          by_cases hpq : p = q
          · subst hpq
            simp [hplp] at hq
            rw [← hq]
            exact Or.inr rfl
          · simp only [hpq, if_false] at hq
            exact absurd (unterminated_unique w.pipelines p q plp pl2 hinv.1 hplp htp hq ht) hpq
        · intro q pl2 hq ht he hc
          simp only [onRequestClose] at hq ⊢
          rw [modifyPipeline_getElem?] at hq
          by_cases hpq : p = q
          · subst hpq
            simp [hplp] at hq
            rw [← hq] at hc
            cases hc
          · simp only [hpq, if_false] at hq
            rw [modifyPipeline_session]
            exact hinv.2.2 q pl2 hq ht he hc
      · exact hinv

theorem run_singlePipeline (steps : List Step) (w : World) (hinv : w.SinglePipeline)
    (hord : inOrder w steps = true) : (run w steps).SinglePipeline := by
  induction steps generalizing w with
  | nil => exact hinv
  | cons s rest ih =>
    simp only [inOrder, Bool.and_eq_true] at hord
    exact ih (step w s) (step_singlePipeline w s hinv hord.1) hord.2

theorem inOrder_take (steps : List Step) (w : World) (n : Nat)
    (h : inOrder w steps = true) : inOrder w (steps.take n) = true := by
  induction steps generalizing w n with
  | nil => simp [inOrder]
  | cons s rest ih =>
    cases n with
    | zero => simp [inOrder]
    | succ n =>
      simp only [inOrder, Bool.and_eq_true, List.take_succ_cons] at h ⊢
      exact ⟨h.1, ih (step w s) n h.2⟩

/-- Claim C4, amended: along every sequence of steps that arrives in order (no frame is sent
while a pipeline whose request stream `finish()` has ended or that has closed still awaits
its completion callback, and a request stream closes before that callback), at every instant
at most one pipeline has not terminated; `finish()` marks the session not ready without
terminating a pipeline, and `send` on a session that is not ready creates a pipeline
whatever the state of the earlier ones. -/
theorem single_active_pipeline_in_order :
    (∀ (env : Env) (steps : List Step) (n : Nat), inOrder (World.init env) steps = true →
      (run (World.init env) (steps.take n)).activeCount ≤ 1) ∧
    (∀ w : World, (finish w).session.isReady = false ∧
      (finish w).activeCount = w.activeCount) ∧
    (∀ (w : World) (frame : RawFrame), w.session.isReady = false →
      (send w frame).pipelines.length = w.pipelines.length + 1 ∧
      (send w frame).activeCount = w.activeCount + 1) := by
  refine ⟨?_, ?_, ?_⟩
  · intro env steps n h
    exact (run_singlePipeline (steps.take n) (World.init env)
      (singlePipeline_of_activeCount_zero _ rfl) (inOrder_take steps _ n h)).1
  · intro w
    exact ⟨by simp [finish], finish_activeCount w⟩
  · intro w frame hr
    have h1 := (send_frame w frame).2.2.2.2.1
    have h2 := (send_activeCount w frame).1
    rw [startPipeline_length] at h1
    rw [startPipeline_activeCount] at h2
    simp only [hr, Bool.false_eq_true, if_false] at h1 h2
    exact ⟨h1, h2⟩

/-- Witness for claim C4: the request stream closes, the pipeline completes, and the next
frame rebuilds a pipeline. -/
theorem single_active_pipeline_witness :
    inOrder (World.init sampleEnv)
      [.send mediaFrame, .deliver 0, .requestClose 0, .pipelineDone 0 none,
       .send mediaFrame] = true ∧
    (run (World.init sampleEnv)
      ([Step.send mediaFrame, .deliver 0, .requestClose 0, .pipelineDone 0 none,
        .send mediaFrame].take 5)).activeCount ≤ 1 ∧
    (run (World.init sampleEnv)
      [.send mediaFrame, .deliver 0, .requestClose 0, .pipelineDone 0 none,
       .send mediaFrame]).pipelines.length = 2 :=
  ⟨by decide,
    single_active_pipeline_in_order.1 sampleEnv
      [.send mediaFrame, .deliver 0, .requestClose 0, .pipelineDone 0 none, .send mediaFrame] 5
      (by decide),
    by decide⟩

end DialogflowGateway
